import Mathlib

/-!
Verification development for the gpbackup global-metadata emitters
(`backup/metadata_globals.go`), the type-catalog query construction and
dependency-list construction (`ConstructBaseTypeDependencies4/5`,
`getTypeQuery`), and the dependency resolver / topological sequencer
described by the design document.

Conventions of the embedding:
* Go strings are Lean `String`s; byte counts are the UTF-8 byte sizes of the
  written text (`byteSize`), matching the spec's "exact encoded byte length
  written (not character count)".  Offsets are `Nat` (the Go `uint64` values
  stay far below 2^64 here, so no wrap-around modelling is needed).
* Stateful printing (`*utils.FileWithByteCount`, `*utils.TOC`) becomes
  explicit state passing: each Print function maps a `(file, toc)` pair to a
  new `(file, toc)` pair.
* The `utils` package sources (`FileWithByteCount`, `TOC`) and the renderer
  `PrintObjectMetadata` are not part of the given sources; they are modelled
  from the spec (see the doc comments marked "Modelled from the spec").
-/

open List

/-- UTF-8 byte length of a character sequence: the number of bytes the
encoder produces, not the number of characters. -/
def byteSize (l : List Char) : Nat := (l.map Char.utf8Size).sum

/-- Modelled from the spec: `utils.FileWithByteCount` (the ByteCountingWriter)
is an append-only output stream; its implementation is not among the given
source files.  The spec: "Exposes CurrentOffset() and an append operation that
advances the offset by the exact encoded byte length written (not character
count)."  The stream starts empty at section start, so the current offset is
the byte size of the accumulated contents. -/
structure FileWithByteCount where
  contents : List Char
deriving DecidableEq

/-- The running byte count (CurrentOffset) of the writer. -/
def FileWithByteCount.byteCount (f : FileWithByteCount) : Nat :=
  byteSize f.contents

/-- Modelled from the spec: one `MustPrintf` call appends the formatted text
to the stream; the byte count advances by the text's encoded byte length.
Formatting is performed by the caller in this embedding, so the function
takes the already-formatted string. -/
def FileWithByteCount.mustPrintf (f : FileWithByteCount) (s : String) :
    FileWithByteCount :=
  ⟨f.contents ++ s.data⟩

/-- A Table-of-Contents entry: `(schema, name, objectType)` plus the byte
range `[startOff, endOff)` of the emitted text within the section stream. -/
structure TOCEntry where
  schema : String
  name : String
  objectType : String
  startOff : Nat
  endOff : Nat
deriving DecidableEq

/-- Modelled from the spec: `utils.TOC` accumulates entries for one section;
its implementation is not among the given source files. -/
structure TOC where
  entries : List TOCEntry
deriving DecidableEq

/-- Modelled from the spec: `TOC.AddMetadataEntry(schema, name, objectType,
start, file)` records one entry whose end offset is the file's byte count at
the moment of the call ("AddEntry(section, schema, name, kind, start, end)…
called exactly once per emitted object per section" is claim C5's subject,
checked below against the callers). -/
def TOC.addMetadataEntry (toc : TOC) (schema name objectType : String)
    (start : Nat) (file : FileWithByteCount) : TOC :=
  ⟨toc.entries ++ [⟨schema, name, objectType, start, file.byteCount⟩]⟩

/-- Modelled from the spec: `PrintObjectMetadata` asks the renderer
collaborator for the object's annotation text (ownership/comment/ACL) and
writes it to the stream.  In this embedding the rendered annotation text is
supplied directly (a `MetadataMap` below maps an Oid to its rendered
annotation; Go's map zero value makes a missing Oid render as ""). -/
def PrintObjectMetadata (file : FileWithByteCount) ( annotation : String) :
    FileWithByteCount :=
  file.mustPrintf annotation

/-- The rendered annotation text per object Oid (Go `MetadataMap`, composed
with the renderer; missing keys give the empty string). -/
def MetadataMap : Type := Nat → String

/-- The `SessionGUCs` record from the source (`ClientEncoding`,
`DefaultWithOids`). -/
structure SessionGUCs where
  clientEncoding : String
  defaultWithOids : String

/-- The text written by `printUniversalSessionGUCs`'s single `MustPrintf`
call (source lines 30-36). -/
def universalSessionGUCsText (gucs : SessionGUCs) : String :=
  "SET statement_timeout = 0;\nSET check_function_bodies = false;\nSET client_min_messages = error;\nSET client_encoding = '"
    ++ gucs.clientEncoding
    ++ "';\nSET standard_conforming_strings = on;\nSET default_with_oids = "
    ++ gucs.defaultWithOids ++ ";\n"

/-- Function `printUniversalSessionGUCs` from `metadata_globals.go`: capture the
start offset, write the universal session GUCs, record one
"SESSION GUCS" entry. -/
def printUniversalSessionGUCs (file : FileWithByteCount) (toc : TOC)
    (gucs : SessionGUCs) : FileWithByteCount × TOC :=
  let start := file.byteCount
  let file := file.mustPrintf (universalSessionGUCsText gucs)
  (file, toc.addMetadataEntry "" "" "SESSION GUCS" start file)

/-- The text written by `print4OnlySessionGUCs`. -/
def gpdb4SessionGUCsText : String := "SET gp_strict_xml_parse = off;\n"

/-- Function `print4OnlySessionGUCs` from `metadata_globals.go`: GPDB4-specific GUCs
get their own "GPDB4 SESSION GUCS" entry. -/
def print4OnlySessionGUCs (file : FileWithByteCount) (toc : TOC) :
    FileWithByteCount × TOC :=
  let start := file.byteCount
  let file := file.mustPrintf gpdb4SessionGUCsText
  (file, toc.addMetadataEntry "" "" "GPDB4 SESSION GUCS" start file)

/-- Function `PrintSessionGUCs` from `metadata_globals.go`.  The Go code branches on
`connection.Version.Before("5")`; the connection's major version is passed
here as `versionMajor`, with `versionMajor < 5` embedding `Before("5")`. -/
def PrintSessionGUCs (versionMajor : Nat) (file : FileWithByteCount)
    (toc : TOC) (gucs : SessionGUCs) : FileWithByteCount × TOC :=
  let ft := printUniversalSessionGUCs file toc gucs
  if versionMajor < 5 then print4OnlySessionGUCs ft.1 ft.2 else ft

/-- The `Database` record fields used by `PrintCreateDatabaseStatement`. -/
structure Database where
  oid : Nat
  name : String
  tablespace : String

/-- The primary statement text `PrintCreateDatabaseStatement` writes for a
database: `CREATE DATABASE` after a blank-line separator, an optional
`TABLESPACE` clause for non-default tablespaces, and the terminating
semicolon (the three `MustPrintf` calls of source lines 58-62 composed). -/
def createDatabaseText (db : Database) : String :=
  "\n\nCREATE DATABASE " ++ db.name
    ++ (if db.tablespace ≠ "pg_default" then " TABLESPACE " ++ db.tablespace else "")
    ++ ";"

/-- Function `PrintCreateDatabaseStatement` from `metadata_globals.go`: write the
CREATE DATABASE statement, record a "DATABASE" entry, then write the
object's annotation and record a separate "DATABASE METADATA" entry only
when the annotation wrote at least one byte
(`if globalFile.ByteCount > start`). -/
def PrintCreateDatabaseStatement (file : FileWithByteCount) (toc : TOC)
    (db : Database) (dbMetadata : MetadataMap) : FileWithByteCount × TOC :=
  let dbname := db.name
  let start := file.byteCount
  let file := file.mustPrintf ("\n\nCREATE DATABASE " ++ dbname)
  let file :=
    if db.tablespace ≠ "pg_default" then
      file.mustPrintf (" TABLESPACE " ++ db.tablespace)
    else file
  let file := file.mustPrintf ";"
  let toc := toc.addMetadataEntry "" dbname "DATABASE" start file
  let start := file.byteCount
  let file := PrintObjectMetadata file (dbMetadata db.oid)
  if file.byteCount > start then
    (file, toc.addMetadataEntry "" dbname "DATABASE METADATA" start file)
  else
    (file, toc)

/-- The `ResourceQueue` record fields used by
`PrintCreateResourceQueueStatements`.  Go stores `MaxCost`/`MinCost` as
strings and compares their `strconv.ParseFloat` values; here the parsed
numeric value is carried as an exact rational next to its display string
(the decimal literals involved are represented exactly). -/
structure ResourceQueue where
  oid : Nat
  name : String
  activeStatements : Int
  maxCost : String
  maxCostVal : Rat
  costOvercommit : Bool
  minCost : String
  minCostVal : Rat
  priority : String
  memoryLimit : String

/-- The `attributes` list built by `PrintCreateResourceQueueStatements`
(source lines 82-104); `strings.ToUpper` on the priority is modelled with
`String.toUpper`. -/
def resourceQueueAttributes (q : ResourceQueue) : List String :=
  (if q.activeStatements ≠ -1 then
      ["ACTIVE_STATEMENTS=" ++ toString q.activeStatements] else [])
    ++ (if q.maxCostVal > -1 then ["MAX_COST=" ++ q.maxCost] else [])
    ++ (if q.costOvercommit then ["COST_OVERCOMMIT=TRUE"] else [])
    ++ (if q.minCostVal > 0 then ["MIN_COST=" ++ q.minCost] else [])
    ++ (if q.priority ≠ "medium" then ["PRIORITY=" ++ q.priority.toUpper] else [])
    ++ (if q.memoryLimit ≠ "-1" then ["MEMORY_LIMIT='" ++ q.memoryLimit ++ "'"] else [])

/-- The statement proper for one resource queue: the payload of the
`MustPrintf("\n\n%s RESOURCE QUEUE %s WITH (%s);", …)` call after the
blank-line separator, with `action` being `ALTER` exactly for the
`pg_default` queue. -/
def resourceQueueStatement (q : ResourceQueue) : String :=
  (if q.name = "pg_default" then "ALTER" else "CREATE")
    ++ " RESOURCE QUEUE " ++ q.name ++ " WITH ("
    ++ String.intercalate ", " (resourceQueueAttributes q) ++ ");"

/-- One iteration of the `PrintCreateResourceQueueStatements` loop: capture
start, write separator + statement, write the annotation, record one
"RESOURCE QUEUE" entry covering all of it. -/
def printOneResourceQueue (ft : FileWithByteCount × TOC) (q : ResourceQueue)
    (resQueueMetadata : MetadataMap) : FileWithByteCount × TOC :=
  let start := ft.1.byteCount
  let file := ft.1.mustPrintf ("\n\n" ++ resourceQueueStatement q)
  let file := PrintObjectMetadata file (resQueueMetadata q.oid)
  (file, ft.2.addMetadataEntry "" q.name "RESOURCE QUEUE" start file)

/-- Function `PrintCreateResourceQueueStatements` from `metadata_globals.go`. -/
def PrintCreateResourceQueueStatements (file : FileWithByteCount) (toc : TOC)
    (resQueues : List ResourceQueue) (resQueueMetadata : MetadataMap) :
    FileWithByteCount × TOC :=
  resQueues.foldl (fun ft q => printOneResourceQueue ft q resQueueMetadata)
    (file, toc)

/-- The `ResourceGroup` record fields used by
`PrintCreateResourceGroupStatements`. -/
structure ResourceGroup where
  oid : Nat
  name : String
  cpuRateLimit : Int
  memoryLimit : Int
  memorySharedQuota : Int
  memorySpillRatio : Int
  concurrency : Int

/-- The `resGroupList` of `(setting, value)` pairs the default/admin branch
iterates over (source lines 125-131). -/
def resGroupList (g : ResourceGroup) : List (String × Int) :=
  [("CPU_RATE_LIMIT", g.cpuRateLimit),
   ("MEMORY_LIMIT", g.memoryLimit),
   ("MEMORY_SHARED_QUOTA", g.memorySharedQuota),
   ("MEMORY_SPILL_RATIO", g.memorySpillRatio),
   ("CONCURRENCY", g.concurrency)]

/-- The `attributes` list of the CREATE branch (source lines 140-145). -/
def resourceGroupAttributes (g : ResourceGroup) : List String :=
  ["CPU_RATE_LIMIT=" ++ toString g.cpuRateLimit,
   "MEMORY_LIMIT=" ++ toString g.memoryLimit,
   "MEMORY_SHARED_QUOTA=" ++ toString g.memorySharedQuota,
   "MEMORY_SPILL_RATIO=" ++ toString g.memorySpillRatio,
   "CONCURRENCY=" ++ toString g.concurrency]

/-- One iteration of the `PrintCreateResourceGroupStatements` loop: the
built-in groups `default_group`/`admin_group` are altered one property at a
time, each property getting its own write, annotation and "RESOURCE GROUP"
entry; any other group is created with one statement and one entry. -/
def printOneResourceGroup (ft : FileWithByteCount × TOC) (g : ResourceGroup)
    (resGroupMetadata : MetadataMap) : FileWithByteCount × TOC :=
  if g.name = "default_group" ∨ g.name = "admin_group" then
    (resGroupList g).foldl
      (fun ft p =>
        let start := ft.1.byteCount
        let file := ft.1.mustPrintf
          ("\n\nALTER RESOURCE GROUP " ++ g.name ++ " SET " ++ p.1 ++ " "
            ++ toString p.2 ++ ";")
        let file := PrintObjectMetadata file (resGroupMetadata g.oid)
        (file, ft.2.addMetadataEntry "" g.name "RESOURCE GROUP" start file))
      ft
  else
    let start := ft.1.byteCount
    let file := ft.1.mustPrintf
      ("\n\nCREATE RESOURCE GROUP " ++ g.name ++ " WITH ("
        ++ String.intercalate ", " (resourceGroupAttributes g) ++ ");")
    let file := PrintObjectMetadata file (resGroupMetadata g.oid)
    (file, ft.2.addMetadataEntry "" g.name "RESOURCE GROUP" start file)

/-- Function `PrintCreateResourceGroupStatements` from `metadata_globals.go`. -/
def PrintCreateResourceGroupStatements (file : FileWithByteCount) (toc : TOC)
    (resGroups : List ResourceGroup) (resGroupMetadata : MetadataMap) :
    FileWithByteCount × TOC :=
  resGroups.foldl (fun ft g => printOneResourceGroup ft g resGroupMetadata)
    (file, toc)

/-- The `RoleMember` record fields used by `PrintRoleMembershipStatements`. -/
structure RoleMember where
  role : String
  member : String
  grantor : String
  isAdmin : Bool

/-- The text the three `MustPrintf` calls of one
`PrintRoleMembershipStatements` iteration write for one role grant. -/
def roleMemberText (m : RoleMember) : String :=
  "\nGRANT " ++ m.role ++ " TO " ++ m.member
    ++ (if m.isAdmin then " WITH ADMIN OPTION" else "")
    ++ " GRANTED BY " ++ m.grantor ++ ";"

/-- One iteration of the `PrintRoleMembershipStatements` loop. -/
def printOneRoleMember (ft : FileWithByteCount × TOC) (m : RoleMember) :
    FileWithByteCount × TOC :=
  let start := ft.1.byteCount
  let file := ft.1.mustPrintf ("\nGRANT " ++ m.role ++ " TO " ++ m.member)
  let file := if m.isAdmin then file.mustPrintf " WITH ADMIN OPTION" else file
  let file := file.mustPrintf (" GRANTED BY " ++ m.grantor ++ ";")
  (file, ft.2.addMetadataEntry "" m.member "ROLE GRANT" start file)

/-- Function `PrintRoleMembershipStatements` from `metadata_globals.go`:
`MustPrintln("\n")` first writes a blank-line separator (`"\n"` plus the
newline `Println` appends) with no TOC entry, then each role grant is
written and recorded. -/
def PrintRoleMembershipStatements (file : FileWithByteCount) (toc : TOC)
    (roleMembers : List RoleMember) : FileWithByteCount × TOC :=
  let file := file.mustPrintf "\n\n"
  roleMembers.foldl printOneRoleMember (file, toc)

/-- Modelled from the spec: a CatalogObjectRecord as the DependencyResolver
and TopologicalSequencer see it (their implementation is not among the given
source files): a stable Oid, pre-escaped Schema and Name, and the ordered
`DependsUpon` list of qualified-name strings.  Nodes register in the
qualified-name lookup under `key` below. -/
structure MetadataObj where
  oid : Nat
  schema : String
  name : String
  dependsUpon : List String
deriving DecidableEq

/-- The qualified name under which an object registers in the resolver's
lookup table. -/
def key (o : MetadataObj) : String := o.schema ++ "." ++ o.name

/-- Modelled from the spec: the DependencyResolver "builds a qualified-name →
node lookup; for each record's DependsUpon entry, resolves through the
lookup, adding an edge on hit and silently dropping on miss (external/
built-in policy)".  The resolved dependencies of `o` within the backup set
`s` are therefore exactly the members of `s` whose key `o.dependsUpon`
names. -/
def resolvedDeps (s : List MetadataObj) (o : MetadataObj) : List MetadataObj :=
  s.filter (fun u => o.dependsUpon.contains (key u))

/-- Three-way comparison of character sequences by code point, lexicographic.
(The embedding avoids `String.lt`'s iterator-based decision procedure, which
the kernel cannot evaluate.) -/
def cmpChars : List Char → List Char → Ordering
  | [], [] => .eq
  | [], _ :: _ => .lt
  | _ :: _, [] => .gt
  | a :: as, b :: bs =>
      if a.toNat < b.toNat then .lt
      else if b.toNat < a.toNat then .gt
      else cmpChars as bs

/-- Three-way comparison of natural numbers. -/
def cmpNat (x y : Nat) : Ordering :=
  if x < y then .lt else if y < x then .gt else .eq

/-- Lexicographic combination of two comparison outcomes: the second one
decides only when the first is a tie. -/
def lexComb : Ordering → Ordering → Ordering
  | .lt, _ => .lt
  | .gt, _ => .gt
  | .eq, o => o

/-- Three-way comparison of objects by ascending (Schema, Name, Oid) — the
spec's tie-break key for the emission sequence. -/
def keyCmp (a b : MetadataObj) : Ordering :=
  lexComb (cmpChars a.schema.data b.schema.data)
    (lexComb (cmpChars a.name.data b.name.data) (cmpNat a.oid b.oid))

/-- The non-strict (Schema, Name, Oid) order used to pre-sort the input. -/
def keyLe (a b : MetadataObj) : Prop := keyCmp a b ≠ .gt

instance : DecidableRel keyLe := fun a b =>
  inferInstanceAs (Decidable (keyCmp a b ≠ .gt))

/-- A node is ready w.r.t. the not-yet-emitted remainder when no other
remaining node's qualified name occurs in its DependsUpon list: every
DependsUpon entry either resolved to an already-emitted node or resolved to
nothing (the silently-dropped external/built-in case, which never blocks). -/
def readyB (rem : List MetadataObj) (o : MetadataObj) : Bool :=
  rem.all (fun u => u == o || !(o.dependsUpon.contains (key u)))

/-- Modelled from the spec: the TopologicalSequencer's main loop.  Each round
emits the first ready node of the (Schema, Name, Oid)-sorted remainder —
i.e. the least ready node in the tie-break order — and removes it.  A round
with remaining nodes but no ready node is a dependency cycle: the sequencer
signals it by returning `none` (the spec's UnbreakableCycle outcome for the
general, non-shell-promotable case). -/
def seqAux : Nat → List MetadataObj → Option (List MetadataObj)
  | 0, rem => if rem.isEmpty then some [] else none
  | fuel + 1, rem =>
    if rem.isEmpty then some []
    else
      match rem.find? (readyB rem) with
      | none => none
      | some o => (seqAux fuel (rem.erase o)).map (fun s => o :: s)

/-- Modelled from the spec: the TopologicalSequencer.  The candidate set is
first sorted by ascending (Schema, Name, Oid) so that ties among ready nodes
are broken deterministically, then consumed by the predecessor-count loop. -/
def topologicalSortObjects (objs : List MetadataObj) : Option (List MetadataObj) :=
  seqAux (objs.insertionSort keyLe).length (objs.insertionSort keyLe)

/-- Predicate stating that `rank` witnesses acyclicity on `s`: it strictly decreases along every
resolved dependency edge (`a` depends on `b` when some member `b` of the set
is named by `a.dependsUpon`). -/
def RankOK (rank : MetadataObj → Nat) (s : List MetadataObj) : Prop :=
  ∀ a ∈ s, ∀ b ∈ s, key b ∈ a.dependsUpon → rank b < rank a

/-- A set of objects is acyclic when its resolved dependency edges admit a
rank function that strictly decreases along every edge (for finite graphs
this is equivalent to having no directed cycle). -/
def Acyclic (s : List MetadataObj) : Prop :=
  ∃ rank : MetadataObj → Nat, RankOK rank s

/-- A `pg_namespace` row (the columns the embedded queries read). -/
structure PGNamespace where
  oid : Nat
  nspname : String
deriving DecidableEq

/-- A `pg_proc` row (the columns the embedded queries read). -/
structure PGProc where
  oid : Nat
  proname : String
  pronamespace : Nat
deriving DecidableEq

/-- A `pg_class` row (the columns the embedded queries read). -/
structure PGClass where
  oid : Nat
  relkind : Char
deriving DecidableEq

/-- A `pg_type` row (the columns the embedded queries read). -/
structure PGTypeRow where
  oid : Nat
  typname : String
  typnamespace : Nat
  typtype : Char
  typelem : Nat
  typarray : Nat
  typrelid : Nat
deriving DecidableEq

/-- A `pg_depend` row (the columns the embedded queries read); `refclassid`
is kept as the regclass name the queries compare against. -/
structure PGDepend where
  objid : Nat
  refobjid : Nat
  refclassid : String
  deptype : Char
deriving DecidableEq

/-- The catalog tables the embedded queries consult. -/
structure PGCatalog where
  types : List PGTypeRow
  classes : List PGClass
  procs : List PGProc
  namespaces : List PGNamespace
  depends : List PGDepend

/-- The scalar subquery `SELECT it.typname FROM pg_type it WHERE it.oid =
t.typelem` used by `getTypeQuery`'s GPDB4 array-types clause (NULL — no
row — makes the enclosing comparison false). -/
def elemTypeRow (cat : PGCatalog) (elemOid : Nat) : Option PGTypeRow :=
  cat.types.find? (fun it => it.oid == elemOid)

/-- The `arrayTypesClause` WHERE condition of `getTypeQuery` on one row:
before GPDB 5 an automatically-generated array type is recognized by its
name being the element type's name prepended with an underscore
(`t.typname[0] = '_' AND substring(t.typname FROM 2) = it.typname`); from
GPDB 5 on by `t.oid` equalling the element type's `typarray`. -/
def arrayTypesCond (before5 : Bool) (cat : PGCatalog) (t : PGTypeRow) : Bool :=
  if before5 then
    t.typelem != 0 && t.typname.length > 1
      && t.typname.data.take 1 == ['_']
      && (match elemTypeRow cat t.typelem with
          | some it => t.typname.data.drop 1 == it.typname.data
          | none => false)
  else
    t.typelem != 0
      && (match elemTypeRow cat t.typelem with
          | some it => t.oid == it.typarray
          | none => false)

/-- Condition `relkind IN ('r', 'S', 'v')` from `getTypeQuery`'s table-types clause. -/
def relkindRSV (c : PGClass) : Bool :=
  c.relkind == 'r' || c.relkind == 'S' || c.relkind == 'v'

/-- The `tableTypesClause` condition of `getTypeQuery` on one row: the type's
`typrelid` joins a real relation (`pg_class.relkind IN ('r','S','v')`), or
the type is the array type of such a type (the second UNION ALL arm, joining
through `typelem`). -/
def tableTypesCond (cat : PGCatalog) (t : PGTypeRow) : Bool :=
  (cat.classes.any (fun c => t.typrelid == c.oid && relkindRSV c))
    || (cat.types.any (fun it =>
          t.typelem == it.oid
            && cat.classes.any (fun c => it.typrelid == c.oid && relkindRSV c)))

/-- The result-set semantics of the query string `getTypeQuery` builds: rows
of the requested `typtype` passing the schema filter, EXCEPT the
automatically-generated array types and the base/composite types created
along with a table.  (`EXCEPT` removes a row when the same select tuple —
which contains `t.oid` — appears in a subtracted arm, i.e. exactly when the
row itself satisfies one of the two subtracted conditions.)  `schemaOK`
stands for `SchemaFilterClause("n")` applied to the row's namespace. -/
def getTypeQuerySem (before5 : Bool) (cat : PGCatalog)
    (schemaOK : Nat → Bool) (typeChar : Char) : List PGTypeRow :=
  cat.types.filter (fun t =>
    schemaOK t.typnamespace && t.typtype == typeChar
      && !(arrayTypesCond before5 cat t || tableTypesCond cat t))

/-- The `Type` record as `ConstructBaseTypeDependencies4/5` read and update
it: its Oid, its `typtype` tag string, and its `DependsUpon` list. -/
structure TypeMeta where
  oid : Nat
  typtype : String
  dependsUpon : List String
deriving DecidableEq

/-- The `FunctionInfo` record as consumed by `ConstructBaseTypeDependencies4`
(`QualifiedName` and `Arguments`). -/
structure FunctionInfo where
  qualifiedName : String
  arguments : String

/-- The scalar subquery `SELECT oid FROM pg_namespace WHERE nspname =
'pg_catalog'`. -/
def pgCatalogNamespace (cat : PGCatalog) : Option Nat :=
  (cat.namespaces.find? (fun n => n.nspname == "pg_catalog")).map (fun n => n.oid)

/-- The join condition `p.pronamespace != (SELECT oid FROM pg_namespace
WHERE nspname = 'pg_catalog')` filtering out built-in functions (a missing
pg_catalog row gives SQL NULL, which fails the condition). -/
def procNotBuiltin (cat : PGCatalog) (p : PGProc) : Bool :=
  match pgCatalogNamespace cat with
  | some o => p.pronamespace != o
  | none => false

/-- The `pg_depend` rows both dependency queries start from:
`refclassid = 'pg_proc'::regclass AND deptype = 'n'`. -/
def procDependRows (cat : PGCatalog) : List PGDepend :=
  cat.depends.filter (fun d => d.refclassid == "pg_proc" && d.deptype == 'n')

/-- The result rows (`t.oid`, `p.oid AS referencedoid`) of the
`ConstructBaseTypeDependencies4` query: each qualifying `pg_depend` row is
joined to its non-built-in function and its base type, with
`SchemaFilterClause("n")` applied to the type's namespace; `SELECT DISTINCT`
becomes `dedup`. -/
def baseTypeDependencyRows4 (cat : PGCatalog) (schemaOK : Nat → Bool) :
    List (Nat × Nat) :=
  ((procDependRows cat).flatMap (fun d =>
    (cat.procs.filter (fun p => d.refobjid == p.oid && procNotBuiltin cat p)).flatMap
      (fun p =>
        (cat.types.filter (fun t => d.objid == t.oid && t.typtype == 'b')).flatMap
          (fun t =>
            (cat.namespaces.filter (fun n =>
                n.oid == t.typnamespace && schemaOK n.oid)).map
              (fun _ => (t.oid, p.oid)))))).dedup

/-- Function `ConstructBaseTypeDependencies4` from the source: build the dependency
strings `QualifiedName(Arguments)` through `funcInfoMap`, group them by the
depending type's Oid (appending in result order, which the grouping filter
reproduces), and overwrite `DependsUpon` of every base type. -/
def ConstructBaseTypeDependencies4 (cat : PGCatalog) (schemaOK : Nat → Bool)
    (funcInfoMap : Nat → FunctionInfo) (types : List TypeMeta) : List TypeMeta :=
  let rows := baseTypeDependencyRows4 cat schemaOK
  types.map (fun t =>
    if t.typtype == "b" then
      { t with dependsUpon :=
          (rows.filter (fun r => r.1 == t.oid)).map (fun r =>
            (funcInfoMap r.2).qualifiedName ++ "("
              ++ (funcInfoMap r.2).arguments ++ ")") }
    else t)

/-- The result rows (`t.oid`, `referencedobject`) of the
`ConstructBaseTypeDependencies5` query.  Unlike the GPDB4 variant it builds
the dependency string in SQL from the function's namespace and
`pg_get_function_arguments`, and `SchemaFilterClause("n")` applies to the
function's namespace (`JOIN pg_namespace n ON n.oid = p.pronamespace`).
`quoteIdent` and `pgGetFunctionArguments` model the server-side `quote_ident`
and `pg_get_function_arguments` functions. -/
def baseTypeDependencyRows5 (cat : PGCatalog) (schemaOK : Nat → Bool)
    (quoteIdent : String → String) (pgGetFunctionArguments : Nat → String) :
    List (Nat × String) :=
  ((procDependRows cat).flatMap (fun d =>
    (cat.procs.filter (fun p => d.refobjid == p.oid && procNotBuiltin cat p)).flatMap
      (fun p =>
        (cat.types.filter (fun t => d.objid == t.oid && t.typtype == 'b')).flatMap
          (fun t =>
            (cat.namespaces.filter (fun n =>
                n.oid == p.pronamespace && schemaOK n.oid)).map
              (fun n =>
                (t.oid,
                  quoteIdent n.nspname ++ "." ++ quoteIdent p.proname ++ "("
                    ++ pgGetFunctionArguments p.oid ++ ")")))))).dedup

/-- Function `ConstructBaseTypeDependencies5` from the source: group the query's
dependency strings by the depending type's Oid and overwrite `DependsUpon`
of every base type. -/
def ConstructBaseTypeDependencies5 (cat : PGCatalog) (schemaOK : Nat → Bool)
    (quoteIdent : String → String) (pgGetFunctionArguments : Nat → String)
    (types : List TypeMeta) : List TypeMeta :=
  let rows := baseTypeDependencyRows5 cat schemaOK quoteIdent pgGetFunctionArguments
  types.map (fun t =>
    if t.typtype == "b" then
      { t with dependsUpon := (rows.filter (fun r => r.1 == t.oid)).map (fun r => r.2) }
    else t)

/-- Predicate `entriesChainFrom n es`: the entries `es` form a gap-free chain of byte
ranges starting at offset `n` (each entry starts where its predecessor
ended). -/
def entriesChainFrom : Nat → List TOCEntry → Prop
  | _, [] => True
  | n, e :: es => e.startOff = n ∧ entriesChainFrom e.endOff es

/-- The final offset of a chain of entries starting at `n`. -/
def chainEnd : Nat → List TOCEntry → Nat
  | n, [] => n
  | _, e :: es => chainEnd e.endOff es

/-- The TOC entries one `PrintRoleMembershipStatements` run appends when the
stream is at offset `n`: one adjacent "ROLE GRANT" range per member, each as
long as that member's text. -/
def roleMemberEntries : Nat → List RoleMember → List TOCEntry
  | _, [] => []
  | n, m :: ms =>
    ⟨"", m.member, "ROLE GRANT", n, n + byteSize (roleMemberText m).data⟩
      :: roleMemberEntries (n + byteSize (roleMemberText m).data) ms

/-- The bytes one resource-queue loop iteration writes: the blank-line
separator, the statement, and the annotation. -/
def resourceQueueWrittenData (md : MetadataMap) (q : ResourceQueue) : List Char :=
  ("\n\n" ++ resourceQueueStatement q).data ++ (md q.oid).data

/-- The TOC entries one `PrintCreateResourceQueueStatements` run appends
when the stream is at offset `n`: one adjacent "RESOURCE QUEUE" range per
queue, covering separator + statement + annotation. -/
def resourceQueueEntries (md : MetadataMap) : Nat → List ResourceQueue → List TOCEntry
  | _, [] => []
  | n, q :: qs =>
    ⟨"", q.name, "RESOURCE QUEUE", n, n + byteSize (resourceQueueWrittenData md q)⟩
      :: resourceQueueEntries md (n + byteSize (resourceQueueWrittenData md q)) qs

/-- A resource group takes the five-ALTER branch exactly when it is one of
the two built-in groups. -/
def isBuiltinResGroup (g : ResourceGroup) : Prop :=
  g.name = "default_group" ∨ g.name = "admin_group"

instance (g : ResourceGroup) : Decidable (isBuiltinResGroup g) :=
  inferInstanceAs (Decidable (_ ∨ _))

/-- The spec's worked example: `FuncX` with no dependencies. -/
def exFuncX : MetadataObj := ⟨1, "public", "FuncX", []⟩

/-- The spec's worked example: `TypeA` depending on `FuncX`. -/
def exTypeA : MetadataObj := ⟨2, "public", "TypeA", ["public.FuncX"]⟩

/-- The spec's worked example: `TypeB` depending on `TypeA`. -/
def exTypeB : MetadataObj := ⟨3, "public", "TypeB", ["public.TypeA"]⟩

/-- A plain base type whose generated array type is `exArrayType`. -/
def exPlainType : PGTypeRow := ⟨1, "mytype", 100, 'b', 0, 2, 0⟩

/-- The automatically-generated array counterpart of `exPlainType`. -/
def exArrayType : PGTypeRow := ⟨2, "_mytype", 100, 'b', 1, 0, 0⟩

/-- A two-type catalog exercising the array-type exclusion. -/
def exCatalog : PGCatalog := ⟨[exPlainType, exArrayType], [], [], [], []⟩

/-- A catalog with one user function, one base type depending on it, and
the pg_catalog namespace present. -/
def exDepCatalog : PGCatalog :=
  ⟨[⟨3, "t", 60, 'b', 0, 0, 0⟩], [], [⟨7, "f", 60⟩],
   [⟨50, "pg_catalog"⟩, ⟨60, "public"⟩], [⟨3, 7, "pg_proc", 'n'⟩]⟩

/-- The `pg_default` queue used by the C10 witness. -/
def rqDefault : ResourceQueue :=
  ⟨5, "pg_default", 20, "-1.0", -1, false, "0.0", 0, "medium", "-1"⟩

/-- An ordinary queue used by the C10 witness. -/
def rqOther : ResourceQueue :=
  ⟨6, "myq", -1, "32.8", (328 : Rat) / 10, true, "1.5", (15 : Rat) / 10,
    "high", "2GB"⟩

/-! ### Basic facts about the byte-counting writer -/

theorem String.data_append' (a b : String) : (a ++ b).data = a.data ++ b.data := rfl

theorem byteSize_nil : byteSize [] = 0 := rfl

theorem byteSize_cons (c : Char) (l : List Char) :
    byteSize (c :: l) = c.utf8Size + byteSize l := by
  simp [byteSize]

theorem byteSize_append (l₁ l₂ : List Char) :
    byteSize (l₁ ++ l₂) = byteSize l₁ + byteSize l₂ := by
  simp [byteSize]

theorem byteSize_eq_zero_iff (l : List Char) : byteSize l = 0 ↔ l = [] := by
  simp only [byteSize, List.sum_eq_zero_iff, List.mem_map]
  constructor
  · intro h
    cases l with
    | nil => rfl
    | cons c cs =>
      exact absurd (h c.utf8Size ⟨c, by simp⟩)
        (by have := Char.utf8Size_pos c; omega)
  · rintro rfl
    simp

theorem string_data_eq_nil_iff (s : String) : s.data = [] ↔ s = "" := by
  cases s
  simp [String.ext_iff]

theorem byteCount_mustPrintf (f : FileWithByteCount) (s : String) :
    (f.mustPrintf s).byteCount = f.byteCount + byteSize s.data := by
  simp [FileWithByteCount.mustPrintf, FileWithByteCount.byteCount, byteSize_append]

theorem mustPrintf_mustPrintf (f : FileWithByteCount) (a b : String) :
    (f.mustPrintf a).mustPrintf b = f.mustPrintf (a ++ b) := by
  simp [FileWithByteCount.mustPrintf, String.data_append']

/-! ### Adjacency of recorded TOC byte ranges -/

/-! ### Characterizations of the emitter loops -/

theorem printOneRoleMember_eq (ft : FileWithByteCount × TOC) (m : RoleMember) :
    printOneRoleMember ft m =
      (⟨ft.1.contents ++ (roleMemberText m).data⟩,
       ⟨ft.2.entries ++ [⟨"", m.member, "ROLE GRANT", ft.1.byteCount,
          ft.1.byteCount + byteSize (roleMemberText m).data⟩]⟩) := by
  by_cases h : m.isAdmin
  · simp [printOneRoleMember, roleMemberText, h, FileWithByteCount.mustPrintf,
      TOC.addMetadataEntry, FileWithByteCount.byteCount, String.data_append',
      byteSize_append, List.append_assoc]
  · simp [printOneRoleMember, roleMemberText, h, FileWithByteCount.mustPrintf,
      TOC.addMetadataEntry, FileWithByteCount.byteCount, String.data_append',
      byteSize_append, List.append_assoc]

theorem foldl_printOneRoleMember (ms : List RoleMember)
    (ft : FileWithByteCount × TOC) :
    ms.foldl printOneRoleMember ft =
      (⟨ft.1.contents ++ ms.flatMap (fun m => (roleMemberText m).data)⟩,
       ⟨ft.2.entries ++ roleMemberEntries ft.1.byteCount ms⟩) := by
  induction ms generalizing ft with
  | nil => simp [roleMemberEntries]
  | cons m ms ih =>
    rw [List.foldl_cons, printOneRoleMember_eq, ih]
    simp [roleMemberEntries, FileWithByteCount.byteCount, byteSize_append]

theorem roleMemberEntries_chain (ms : List RoleMember) (n : Nat) :
    entriesChainFrom n (roleMemberEntries n ms) := by
  induction ms generalizing n with
  | nil => trivial
  | cons m ms ih => exact ⟨rfl, ih _⟩

theorem roleMemberEntries_chainEnd (ms : List RoleMember) (n : Nat) :
    chainEnd n (roleMemberEntries n ms) =
      n + byteSize (ms.flatMap (fun m => (roleMemberText m).data)) := by
  induction ms generalizing n with
  | nil => simp [roleMemberEntries, chainEnd, byteSize_nil]
  | cons m ms ih =>
    simp [roleMemberEntries, chainEnd, ih, byteSize_append]
    omega

theorem roleMemberEntries_spec (ms : List RoleMember) (n : Nat) :
    List.Forall₂
      (fun (e : TOCEntry) (m : RoleMember) =>
        e.endOff = e.startOff + byteSize (roleMemberText m).data
          ∧ e.objectType = "ROLE GRANT" ∧ e.name = m.member)
      (roleMemberEntries n ms) ms := by
  induction ms generalizing n with
  | nil => exact List.Forall₂.nil
  | cons m ms ih => exact List.Forall₂.cons ⟨rfl, rfl, rfl⟩ (ih _)

theorem printOneResourceQueue_eq (ft : FileWithByteCount × TOC)
    (q : ResourceQueue) (md : MetadataMap) :
    printOneResourceQueue ft q md =
      (⟨ft.1.contents ++ resourceQueueWrittenData md q⟩,
       ⟨ft.2.entries ++ [⟨"", q.name, "RESOURCE QUEUE", ft.1.byteCount,
          ft.1.byteCount + byteSize (resourceQueueWrittenData md q)⟩]⟩) := by
  simp [printOneResourceQueue, PrintObjectMetadata, FileWithByteCount.mustPrintf,
    TOC.addMetadataEntry, FileWithByteCount.byteCount, String.data_append',
    byteSize_append, List.append_assoc, resourceQueueWrittenData]

theorem foldl_printOneResourceQueue (qs : List ResourceQueue)
    (md : MetadataMap) (ft : FileWithByteCount × TOC) :
    qs.foldl (fun ft q => printOneResourceQueue ft q md) ft =
      (⟨ft.1.contents ++ qs.flatMap (resourceQueueWrittenData md)⟩,
       ⟨ft.2.entries ++ resourceQueueEntries md ft.1.byteCount qs⟩) := by
  induction qs generalizing ft with
  | nil => simp [resourceQueueEntries]
  | cons q qs ih =>
    rw [List.foldl_cons, printOneResourceQueue_eq, ih]
    simp [resourceQueueEntries, FileWithByteCount.byteCount, byteSize_append]

theorem resourceQueueEntries_chain (md : MetadataMap) (qs : List ResourceQueue)
    (n : Nat) : entriesChainFrom n (resourceQueueEntries md n qs) := by
  induction qs generalizing n with
  | nil => trivial
  | cons q qs ih => exact ⟨rfl, ih _⟩

theorem resourceQueueEntries_spec (md : MetadataMap) (qs : List ResourceQueue)
    (n : Nat) :
    List.Forall₂
      (fun (e : TOCEntry) (q : ResourceQueue) =>
        e.endOff = e.startOff + byteSize ("\n\n" ++ resourceQueueStatement q).data
            + byteSize (md q.oid).data
          ∧ e.objectType = "RESOURCE QUEUE" ∧ e.name = q.name)
      (resourceQueueEntries md n qs) qs := by
  induction qs generalizing n with
  | nil => exact List.Forall₂.nil
  | cons q qs ih =>
    refine List.Forall₂.cons ⟨?_, rfl, rfl⟩ (ih _)
    simp [resourceQueueWrittenData, byteSize_append, String.data_append',
      byteSize_cons]
    omega

theorem resourceQueueEntries_length (md : MetadataMap) (qs : List ResourceQueue)
    (n : Nat) : (resourceQueueEntries md n qs).length = qs.length := by
  induction qs generalizing n with
  | nil => rfl
  | cons q qs ih => simp [resourceQueueEntries, ih]

theorem roleMemberEntries_length (ms : List RoleMember) (n : Nat) :
    (roleMemberEntries n ms).length = ms.length := by
  induction ms generalizing n with
  | nil => rfl
  | cons m ms ih => simp [roleMemberEntries, ih]

theorem printOneResourceGroup_entries_length (ft : FileWithByteCount × TOC)
    (g : ResourceGroup) (md : MetadataMap) :
    ((printOneResourceGroup ft g md).2.entries.length
      = ft.2.entries.length + (if isBuiltinResGroup g then 5 else 1)) := by
  by_cases h : isBuiltinResGroup g
  · simp only [printOneResourceGroup, isBuiltinResGroup, resGroupList] at h ⊢
    rw [if_pos h, if_pos h]
    simp [List.foldl_cons, TOC.addMetadataEntry]
  · simp only [printOneResourceGroup, isBuiltinResGroup] at h ⊢
    rw [if_neg h, if_neg h]
    simp [TOC.addMetadataEntry]

theorem foldl_printOneResourceGroup_entries_length (gs : List ResourceGroup)
    (md : MetadataMap) (ft : FileWithByteCount × TOC) :
    ((gs.foldl (fun ft g => printOneResourceGroup ft g md) ft).2.entries.length
      = ft.2.entries.length
        + (gs.map (fun g => if isBuiltinResGroup g then 5 else 1)).sum) := by
  induction gs generalizing ft with
  | nil => simp
  | cons g gs ih =>
    rw [List.foldl_cons, ih, printOneResourceGroup_entries_length]
    simp
    omega

theorem PrintCreateDatabaseStatement_eq (f : FileWithByteCount) (t : TOC)
    (db : Database) (md : MetadataMap) :
    PrintCreateDatabaseStatement f t db md =
      if md db.oid = "" then
        (⟨f.contents ++ (createDatabaseText db).data⟩,
         ⟨t.entries ++ [⟨"", db.name, "DATABASE", f.byteCount,
            f.byteCount + byteSize (createDatabaseText db).data⟩]⟩)
      else
        (⟨f.contents ++ (createDatabaseText db).data ++ (md db.oid).data⟩,
         ⟨t.entries
            ++ [⟨"", db.name, "DATABASE", f.byteCount,
                  f.byteCount + byteSize (createDatabaseText db).data⟩,
                ⟨"", db.name, "DATABASE METADATA",
                  f.byteCount + byteSize (createDatabaseText db).data,
                  f.byteCount + byteSize (createDatabaseText db).data
                    + byteSize (md db.oid).data⟩]⟩) := by
  have hcompose :
      PrintCreateDatabaseStatement f t db md =
        (if ((f.mustPrintf (createDatabaseText db)).mustPrintf (md db.oid)).byteCount
              > (f.mustPrintf (createDatabaseText db)).byteCount then
          ((f.mustPrintf (createDatabaseText db)).mustPrintf (md db.oid),
            (t.addMetadataEntry "" db.name "DATABASE" f.byteCount
                (f.mustPrintf (createDatabaseText db))).addMetadataEntry
              "" db.name "DATABASE METADATA"
              (f.mustPrintf (createDatabaseText db)).byteCount
              ((f.mustPrintf (createDatabaseText db)).mustPrintf (md db.oid)))
        else
          ((f.mustPrintf (createDatabaseText db)).mustPrintf (md db.oid),
            t.addMetadataEntry "" db.name "DATABASE" f.byteCount
              (f.mustPrintf (createDatabaseText db)))) := by
    by_cases hts : db.tablespace ≠ "pg_default"
    · simp only [PrintCreateDatabaseStatement, createDatabaseText, if_pos hts,
        mustPrintf_mustPrintf, PrintObjectMetadata]
    · simp only [PrintCreateDatabaseStatement, createDatabaseText, if_neg hts,
        mustPrintf_mustPrintf, PrintObjectMetadata, String.append_empty]
  rw [hcompose]
  by_cases hmd : md db.oid = ""
  · rw [if_neg, if_pos hmd]
    · simp [FileWithByteCount.mustPrintf, TOC.addMetadataEntry, hmd,
        byteCount_mustPrintf, FileWithByteCount.byteCount, byteSize_append]
    · rw [byteCount_mustPrintf, hmd]
      simp [byteSize_nil]
  · rw [if_pos, if_neg hmd]
    · simp only [FileWithByteCount.mustPrintf, TOC.addMetadataEntry,
        byteCount_mustPrintf, List.append_assoc, String.data_append',
        FileWithByteCount.byteCount, byteSize_append, Nat.add_assoc,
        List.singleton_append, List.cons_append, List.nil_append]
    · rw [byteCount_mustPrintf]
      have : byteSize (md db.oid).data ≠ 0 := by
        intro h0
        exact hmd (string_data_eq_nil_iff _ |>.mp ((byteSize_eq_zero_iff _).mp h0))
      omega

theorem printUniversalSessionGUCs_eq (f : FileWithByteCount) (t : TOC)
    (gucs : SessionGUCs) :
    printUniversalSessionGUCs f t gucs =
      (⟨f.contents ++ (universalSessionGUCsText gucs).data⟩,
       ⟨t.entries ++ [⟨"", "", "SESSION GUCS", f.byteCount,
          f.byteCount + byteSize (universalSessionGUCsText gucs).data⟩]⟩) := by
  simp [printUniversalSessionGUCs, FileWithByteCount.mustPrintf,
    TOC.addMetadataEntry, FileWithByteCount.byteCount, byteSize_append]

theorem print4OnlySessionGUCs_eq (f : FileWithByteCount) (t : TOC) :
    print4OnlySessionGUCs f t =
      (⟨f.contents ++ gpdb4SessionGUCsText.data⟩,
       ⟨t.entries ++ [⟨"", "", "GPDB4 SESSION GUCS", f.byteCount,
          f.byteCount + byteSize gpdb4SessionGUCsText.data⟩]⟩) := by
  simp [print4OnlySessionGUCs, FileWithByteCount.mustPrintf,
    TOC.addMetadataEntry, FileWithByteCount.byteCount, byteSize_append]

/-! ### Correctness of the topological sequencer -/

theorem exists_min_rank (l : List MetadataObj) (rank : MetadataObj → Nat)
    (h : l ≠ []) : ∃ a ∈ l, ∀ b ∈ l, rank a ≤ rank b := by
  induction l with
  | nil => exact absurd rfl h
  | cons x xs ih =>
    rcases eq_or_ne xs [] with rfl | hxs
    · refine ⟨x, mem_cons_self x [], ?_⟩
      intro b hb
      rcases mem_cons.mp hb with rfl | hb
      · exact le_rfl
      · exact absurd hb (not_mem_nil b)
    · obtain ⟨a, ha, hmin⟩ := ih hxs
      by_cases hxa : rank x ≤ rank a
      · refine ⟨x, mem_cons_self x xs, ?_⟩
        intro b hb
        rcases mem_cons.mp hb with rfl | hb
        · exact le_rfl
        · exact hxa.trans (hmin b hb)
      · refine ⟨a, mem_cons_of_mem x ha, ?_⟩
        intro b hb
        rcases mem_cons.mp hb with rfl | hb
        · exact (not_le.mp hxa).le
        · exact hmin b hb

theorem readyB_eq_true {rem : List MetadataObj} {o : MetadataObj} :
    readyB rem o = true ↔ ∀ u ∈ rem, u = o ∨ key u ∉ o.dependsUpon := by
  simp [readyB, List.all_eq_true]

theorem readyB_of_min (rank : MetadataObj → Nat) (rem : List MetadataObj)
    (hR : RankOK rank rem) (m : MetadataObj) (hm : m ∈ rem)
    (hmin : ∀ b ∈ rem, rank m ≤ rank b) : readyB rem m = true := by
  rw [readyB_eq_true]
  intro u hu
  by_cases hdep : key u ∈ m.dependsUpon
  · exact absurd (hR m hm u hu hdep) (not_lt.mpr (hmin u hu))
  · exact Or.inr hdep

theorem seqAux_sound (fuel : Nat) :
    ∀ rem : List MetadataObj, rem.length ≤ fuel →
    ∀ rank : MetadataObj → Nat, RankOK rank rem →
    ∃ s, seqAux fuel rem = some s ∧ s.Perm rem ∧
      s.Pairwise (fun a b => key b ∉ a.dependsUpon) := by
  induction fuel with
  | zero =>
    intro rem hlen rank hR
    have hnil : rem = [] := length_eq_zero.mp (Nat.le_zero.mp hlen)
    subst hnil
    exact ⟨[], by simp [seqAux], Perm.refl _, Pairwise.nil⟩
  | succ fuel ih =>
    intro rem hlen rank hR
    rcases eq_or_ne rem [] with rfl | hne
    · exact ⟨[], by simp [seqAux], Perm.refl _, Pairwise.nil⟩
    · obtain ⟨m, hm, hmin⟩ := exists_min_rank rem rank hne
      have hready := readyB_of_min rank rem hR m hm hmin
      obtain ⟨o, ho⟩ := Option.isSome_iff_exists.mp
        (find?_isSome.mpr ⟨m, hm, hready⟩)
      have hoMem : o ∈ rem := mem_of_find?_eq_some ho
      have hoReady : readyB rem o = true := find?_some ho
      have hlen' : (rem.erase o).length ≤ fuel := by
        rw [length_erase_of_mem hoMem]
        have : 1 ≤ rem.length := length_pos.mpr hne
        omega
      have hR' : RankOK rank (rem.erase o) := fun a ha b hb hd =>
        hR a (mem_of_mem_erase ha) b (mem_of_mem_erase hb) hd
      obtain ⟨s, hs, hperm, hpw⟩ := ih (rem.erase o) hlen' rank hR'
      have hEmpty : rem.isEmpty = false := by
        simpa [List.isEmpty_iff] using hne
      refine ⟨o :: s, ?_, ?_, ?_⟩
      · simp [seqAux, hEmpty, ho, hs]
      · exact (hperm.cons o).trans (perm_cons_erase hoMem).symm
      · refine pairwise_cons.mpr ⟨?_, hpw⟩
        intro b hb
        have hbrem : b ∈ rem := mem_of_mem_erase (hperm.subset hb)
        rcases readyB_eq_true.mp hoReady b hbrem with rfl | h
        · intro hdep
          exact absurd (hR b hoMem b hoMem hdep) (lt_irrefl _)
        · exact h

theorem topologicalSortObjects_sound (objs : List MetadataObj)
    (h : Acyclic objs) :
    ∃ s, topologicalSortObjects objs = some s ∧ s.Perm objs ∧
      s.Pairwise (fun a b => key b ∉ a.dependsUpon) := by
  obtain ⟨rank, hR⟩ := h
  have hperm := perm_insertionSort keyLe objs
  have hR' : RankOK rank (objs.insertionSort keyLe) := fun a ha b hb hd =>
    hR a (hperm.subset ha) b (hperm.subset hb) hd
  obtain ⟨s, hs, hp, hpw⟩ :=
    seqAux_sound (objs.insertionSort keyLe).length (objs.insertionSort keyLe)
      le_rfl rank hR'
  exact ⟨s, hs, hp.trans hperm, hpw⟩

/-! ### The (Schema, Name, Oid) order: totality, transitivity, antisymmetry -/

theorem charToNat_inj {a b : Char} (h : a.toNat = b.toNat) : a = b :=
  Char.ext (UInt32.ext h)

theorem string_data_inj {s t : String} (h : s.data = t.data) : s = t :=
  congrArg String.mk h

theorem cmpChars_eq_iff : ∀ (a b : List Char), cmpChars a b = .eq ↔ a = b
  | [], [] => by simp [cmpChars]
  | [], _ :: _ => by simp [cmpChars]
  | _ :: _, [] => by simp [cmpChars]
  | a :: as, b :: bs => by
    simp only [cmpChars, List.cons.injEq]
    by_cases hab : a.toNat < b.toNat
    · rw [if_pos hab]
      constructor
      · intro hc
        exact absurd hc (by simp)
      · rintro ⟨rfl, -⟩
        exact absurd hab (lt_irrefl _)
    · by_cases hba : b.toNat < a.toNat
      · rw [if_neg hab, if_pos hba]
        constructor
        · intro hc
          exact absurd hc (by simp)
        · rintro ⟨rfl, -⟩
          exact absurd hba (lt_irrefl _)
      · rw [if_neg hab, if_neg hba, cmpChars_eq_iff as bs]
        have : a = b := charToNat_inj (by omega)
        simp [this]

theorem cmpChars_swap : ∀ (a b : List Char), cmpChars b a = (cmpChars a b).swap
  | [], [] => rfl
  | [], _ :: _ => rfl
  | _ :: _, [] => rfl
  | a :: as, b :: bs => by
    simp only [cmpChars]
    by_cases hab : a.toNat < b.toNat
    · rw [if_pos hab, if_neg (by omega), if_pos hab]
      rfl
    · by_cases hba : b.toNat < a.toNat
      · rw [if_pos hba, if_neg hab, if_pos hba]
        rfl
      · rw [if_neg hba, if_neg hab, if_neg hab, if_neg hba]
        exact cmpChars_swap as bs

theorem cmpChars_lt_trans :
    ∀ (a b c : List Char), cmpChars a b = .lt → cmpChars b c = .lt →
      cmpChars a c = .lt
  | [], [], _ => fun h1 _ => absurd h1 (by simp [cmpChars])
  | [], _ :: _, [] => fun _ h2 => absurd h2 (by simp [cmpChars])
  | [], _ :: _, _ :: _ => fun _ _ => by simp [cmpChars]
  | _ :: _, [], _ => fun h1 _ => absurd h1 (by simp [cmpChars])
  | _ :: _, _ :: _, [] => fun _ h2 => absurd h2 (by simp [cmpChars])
  | a :: as, b :: bs, c :: cs => fun h1 h2 => by
    simp only [cmpChars] at h1 h2 ⊢
    by_cases hab : a.toNat < b.toNat
    · by_cases hbc : b.toNat < c.toNat
      · rw [if_pos (show a.toNat < c.toNat by omega)]
      · by_cases hcb : c.toNat < b.toNat
        · rw [if_neg hbc, if_pos hcb] at h2
          exact absurd h2 (by simp)
        · rw [if_pos (show a.toNat < c.toNat by omega)]
    · by_cases hba : b.toNat < a.toNat
      · rw [if_neg hab, if_pos hba] at h1
        exact absurd h1 (by simp)
      · rw [if_neg hab, if_neg hba] at h1
        by_cases hbc : b.toNat < c.toNat
        · rw [if_pos (show a.toNat < c.toNat by omega)]
        · by_cases hcb : c.toNat < b.toNat
          · rw [if_neg hbc, if_pos hcb] at h2
            exact absurd h2 (by simp)
          · rw [if_neg hbc, if_neg hcb] at h2
            rw [if_neg (show ¬ a.toNat < c.toNat by omega),
              if_neg (show ¬ c.toNat < a.toNat by omega)]
            exact cmpChars_lt_trans as bs cs h1 h2

theorem cmpNat_eq_iff {x y : Nat} : cmpNat x y = .eq ↔ x = y := by
  unfold cmpNat
  split_ifs with h1 h2
  · constructor
    · intro hc
      exact absurd hc (by simp)
    · omega
  · constructor
    · intro hc
      exact absurd hc (by simp)
    · omega
  · constructor
    · intro _
      omega
    · intro _
      rfl

theorem cmpNat_swap (x y : Nat) : cmpNat y x = (cmpNat x y).swap := by
  unfold cmpNat
  by_cases h1 : x < y
  · rw [if_pos h1, if_neg (by omega), if_pos h1]
    rfl
  · by_cases h2 : y < x
    · rw [if_pos h2, if_neg h1, if_pos h2]
      rfl
    · rw [if_neg h2, if_neg h1, if_neg h1, if_neg h2]
      rfl

theorem cmpNat_lt_trans {x y z : Nat} (h1 : cmpNat x y = .lt)
    (h2 : cmpNat y z = .lt) : cmpNat x z = .lt := by
  unfold cmpNat at h1 h2 ⊢
  split_ifs at h1 h2 ⊢ with hxy hyz hxz <;> first | rfl | omega

theorem lexComb_swap (o₁ o₂ : Ordering) :
    lexComb o₁.swap o₂.swap = (lexComb o₁ o₂).swap := by
  cases o₁ <;> rfl

theorem lexComb_eq_eq {o₁ o₂ : Ordering} :
    lexComb o₁ o₂ = .eq ↔ o₁ = .eq ∧ o₂ = .eq := by
  cases o₁ <;> simp [lexComb]

theorem lexComb_lt_iff {o₁ o₂ : Ordering} :
    lexComb o₁ o₂ = .lt ↔ o₁ = .lt ∨ (o₁ = .eq ∧ o₂ = .lt) := by
  cases o₁ <;> simp [lexComb]

theorem keyCmp_swap (a b : MetadataObj) : keyCmp b a = (keyCmp a b).swap := by
  simp only [keyCmp]
  rw [cmpChars_swap a.schema.data b.schema.data,
    cmpChars_swap a.name.data b.name.data, cmpNat_swap a.oid b.oid,
    lexComb_swap, lexComb_swap]

theorem keyCmp_eq_iff_keys {a b : MetadataObj} :
    keyCmp a b = .eq ↔
      a.schema = b.schema ∧ a.name = b.name ∧ a.oid = b.oid := by
  simp only [keyCmp, lexComb_eq_eq, cmpChars_eq_iff, cmpNat_eq_iff]
  constructor
  · rintro ⟨h1, h2, h3⟩
    exact ⟨string_data_inj h1, string_data_inj h2, h3⟩
  · rintro ⟨h1, h2, h3⟩
    exact ⟨by rw [h1], by rw [h2], h3⟩

theorem keyCmp_lt_trans {a b c : MetadataObj} (h1 : keyCmp a b = .lt)
    (h2 : keyCmp b c = .lt) : keyCmp a c = .lt := by
  simp only [keyCmp, lexComb_lt_iff] at h1 h2 ⊢
  rcases h1 with h1 | ⟨h1s, h1 | ⟨h1n, h1o⟩⟩ <;>
    rcases h2 with h2 | ⟨h2s, h2 | ⟨h2n, h2o⟩⟩
  · exact Or.inl (cmpChars_lt_trans _ _ _ h1 h2)
  · exact Or.inl (by rw [← (cmpChars_eq_iff _ _).mp h2s]; exact h1)
  · exact Or.inl (by rw [← (cmpChars_eq_iff _ _).mp h2s]; exact h1)
  · exact Or.inl (by rw [(cmpChars_eq_iff _ _).mp h1s]; exact h2)
  · refine Or.inr ⟨by rw [(cmpChars_eq_iff _ _).mp h1s]; exact h2s, ?_⟩
    exact Or.inl (cmpChars_lt_trans _ _ _ h1 h2)
  · refine Or.inr ⟨by rw [(cmpChars_eq_iff _ _).mp h1s]; exact h2s, ?_⟩
    exact Or.inl (by rw [← (cmpChars_eq_iff _ _).mp h2n]; exact h1)
  · exact Or.inl (by rw [(cmpChars_eq_iff _ _).mp h1s]; exact h2)
  · refine Or.inr ⟨by rw [(cmpChars_eq_iff _ _).mp h1s]; exact h2s, ?_⟩
    exact Or.inl (by rw [(cmpChars_eq_iff _ _).mp h1n]; exact h2)
  · refine Or.inr ⟨by rw [(cmpChars_eq_iff _ _).mp h1s]; exact h2s, ?_⟩
    exact Or.inr ⟨by rw [(cmpChars_eq_iff _ _).mp h1n]; exact h2n,
      cmpNat_lt_trans h1o h2o⟩

theorem keyLe_iff_not_lt_rev {a b : MetadataObj} :
    keyLe a b ↔ ¬ keyCmp b a = .lt := by
  rw [keyLe, keyCmp_swap b a]
  rcases h : keyCmp b a with _ | _ | _ <;> simp [Ordering.swap]

instance : IsTotal MetadataObj keyLe := by
  constructor
  intro a b
  by_cases h : keyCmp a b = .gt
  · right
    rw [keyLe, keyCmp_swap a b, h]
    simp [Ordering.swap]
  · exact Or.inl h

instance : IsTrans MetadataObj keyLe := by
  constructor
  intro a b c hab hbc
  rw [keyLe_iff_not_lt_rev] at hab hbc ⊢
  intro hca
  rcases h : keyCmp b a with _ | _ | _
  · exact hab h
  · obtain ⟨hs, hn, ho⟩ := keyCmp_eq_iff_keys.mp h
    refine hbc ?_
    rw [show keyCmp c b = keyCmp c a from by
      simp only [keyCmp, hs, hn, ho]]
    exact hca
  · rw [keyCmp_swap] at h
    have hab' : keyCmp a b = .lt := by
      cases habc : keyCmp a b <;> rw [habc] at h <;>
        first | rfl | exact absurd h (by simp [Ordering.swap])
    exact hbc (keyCmp_lt_trans hca hab')

theorem keyLe_antisymm_keys {a b : MetadataObj} (hab : keyLe a b)
    (hba : keyLe b a) : a.schema = b.schema ∧ a.name = b.name ∧ a.oid = b.oid := by
  rw [keyLe] at hab hba
  rcases h : keyCmp a b with _ | _ | _
  · rw [keyCmp_swap a b, h] at hba
    simp [Ordering.swap] at hba
  · exact keyCmp_eq_iff_keys.mp h
  · exact absurd h hab

/-- Two sorted lists that are permutations of each other and whose Oids are
pairwise distinct are equal: the (Schema, Name, Oid) order determines the
arrangement completely once Oids are unique. -/
theorem sorted_perm_eq_of_nodup_oid :
    ∀ (l₁ l₂ : List MetadataObj), l₁.Perm l₂ →
      l₁.Sorted keyLe → l₂.Sorted keyLe →
      l₁.Pairwise (fun a b => a.oid ≠ b.oid) → l₁ = l₂
  | [], l₂, hp, _, _, _ => (hp.nil_eq).symm ▸ rfl
  | a :: t₁, [], hp, _, _, _ => absurd hp.eq_nil (by simp)
  | a :: t₁, b :: t₂, hp, hs₁, hs₂, hn => by
    have hmem_a : a ∈ b :: t₂ := hp.subset (mem_cons_self a t₁)
    have hab : a = b := by
      rcases mem_cons.mp hmem_a with h | hat₂
      · exact h
      · have hmem_b : b ∈ a :: t₁ := hp.symm.subset (mem_cons_self b t₂)
        rcases mem_cons.mp hmem_b with h | hbt₁
        · exact h.symm
        · -- a sits in t₂ and b sits in t₁: both orders force key-equality,
          -- contradicting Oid distinctness
          have h₁ : keyLe a b := (sorted_cons.mp hs₁).1 b hbt₁
          have h₂ : keyLe b a := (sorted_cons.mp hs₂).1 a hat₂
          obtain ⟨-, -, ho⟩ := keyLe_antisymm_keys h₁ h₂
          exact absurd ho ((pairwise_cons.mp hn).1 b hbt₁)
    subst hab
    have hp' : t₁.Perm t₂ := hp.cons_inv
    have := sorted_perm_eq_of_nodup_oid t₁ t₂ hp'
      (sorted_cons.mp hs₁).2 (sorted_cons.mp hs₂).2 (pairwise_cons.mp hn).2
    rw [this]

/-- Determinism of the sequencer across input orderings (given the run
invariant that Oids are unique). -/
theorem topologicalSortObjects_perm_eq (l l' : List MetadataObj)
    (hp : l.Perm l') (hn : l.Pairwise (fun a b => a.oid ≠ b.oid)) :
    topologicalSortObjects l = topologicalSortObjects l' := by
  have hsort : l.insertionSort keyLe = l'.insertionSort keyLe := by
    apply sorted_perm_eq_of_nodup_oid
    · exact (perm_insertionSort keyLe l).trans
        (hp.trans (perm_insertionSort keyLe l').symm)
    · exact sorted_insertionSort keyLe l
    · exact sorted_insertionSort keyLe l'
    · exact ((perm_insertionSort keyLe l).pairwise_iff
        (fun h => Ne.symm h)).mpr hn
  rw [topologicalSortObjects, topologicalSortObjects, hsort]

/-! ### Resolver and catalog-query facts -/

theorem resolvedDeps_subset (s : List MetadataObj) (o : MetadataObj) :
    ∀ u ∈ resolvedDeps s o, u ∈ s := by
  intro u hu
  exact (List.mem_filter.mp hu).1

/-- Dropping an unresolved DependsUpon name (one matching no key in the
set) leaves the resolved dependency list unchanged: the miss contributed no
edge. -/
theorem resolvedDeps_erase_unresolved (s : List MetadataObj)
    (o : MetadataObj) (d : String) (hmiss : ∀ u ∈ s, key u ≠ d) :
    resolvedDeps s o =
      resolvedDeps s
        ⟨o.oid, o.schema, o.name, o.dependsUpon.filter (fun x => x ≠ d)⟩ := by
  unfold resolvedDeps
  apply List.filter_congr
  intro u hu
  simp only [List.contains, List.elem_eq_mem]
  rw [decide_eq_decide]
  constructor
  · intro hmem
    exact List.mem_filter.mpr ⟨hmem, by simpa using hmiss u hu⟩
  · intro hmem
    exact (List.mem_filter.mp hmem).1

/-- Every row the type query returns fails both exclusion conditions: it is
neither an automatically-generated array type nor a type created along with
a table. -/
theorem getTypeQuerySem_excludes (before5 : Bool) (cat : PGCatalog)
    (schemaOK : Nat → Bool) (typeChar : Char) :
    ∀ t ∈ getTypeQuerySem before5 cat schemaOK typeChar,
      arrayTypesCond before5 cat t = false ∧ tableTypesCond cat t = false := by
  intro t ht
  have h := (List.mem_filter.mp ht).2
  simp only [Bool.and_eq_true, Bool.not_eq_true', Bool.or_eq_false_iff] at h
  exact h.2

/-- Provenance of every `DependsUpon` entry `ConstructBaseTypeDependencies5`
produces: it was built from a function row that passed the
not-in-pg_catalog filter. -/
theorem constructBaseTypeDependencies5_provenance (cat : PGCatalog)
    (schemaOK : Nat → Bool) (quoteIdent : String → String)
    (pgGetFunctionArguments : Nat → String) (types : List TypeMeta) :
    ∀ t ∈ ConstructBaseTypeDependencies5 cat schemaOK quoteIdent
        pgGetFunctionArguments types,
      t.typtype = "b" →
      ∀ d ∈ t.dependsUpon,
        ∃ p ∈ cat.procs, procNotBuiltin cat p = true ∧
          ∃ n ∈ cat.namespaces,
            d = quoteIdent n.nspname ++ "." ++ quoteIdent p.proname ++ "("
              ++ pgGetFunctionArguments p.oid ++ ")" := by
  intro t ht htb d hd
  simp only [ConstructBaseTypeDependencies5, List.mem_map] at ht
  obtain ⟨t₀, ht₀, hmap⟩ := ht
  by_cases hb : t₀.typtype == "b"
  · rw [if_pos hb] at hmap
    subst hmap
    simp only [List.mem_map] at hd
    obtain ⟨row, hrow, hd⟩ := hd
    have hrow' : row ∈ baseTypeDependencyRows5 cat schemaOK quoteIdent
        pgGetFunctionArguments := (List.mem_filter.mp hrow).1
    rw [baseTypeDependencyRows5, List.mem_dedup] at hrow'
    simp only [List.mem_flatMap, List.mem_map, List.mem_filter,
      Bool.and_eq_true, beq_iff_eq] at hrow'
    obtain ⟨dep, -, p, ⟨hp, -, hpnb⟩, t₁, -, n, ⟨hn, -⟩, heq⟩ := hrow'
    refine ⟨p, hp, hpnb, n, hn, ?_⟩
    rw [← hd, ← heq]
  · rw [if_neg hb] at hmap
    subst hmap
    exact absurd htb (by simpa using hb)

/-- Provenance of every `DependsUpon` entry `ConstructBaseTypeDependencies4`
produces: it is the `QualifiedName(Arguments)` rendering of a function row
that passed the not-in-pg_catalog filter. -/
theorem constructBaseTypeDependencies4_provenance (cat : PGCatalog)
    (schemaOK : Nat → Bool) (funcInfoMap : Nat → FunctionInfo)
    (types : List TypeMeta) :
    ∀ t ∈ ConstructBaseTypeDependencies4 cat schemaOK funcInfoMap types,
      t.typtype = "b" →
      ∀ d ∈ t.dependsUpon,
        ∃ p ∈ cat.procs, procNotBuiltin cat p = true ∧
          d = (funcInfoMap p.oid).qualifiedName ++ "("
            ++ (funcInfoMap p.oid).arguments ++ ")" := by
  intro t ht htb d hd
  simp only [ConstructBaseTypeDependencies4, List.mem_map] at ht
  obtain ⟨t₀, ht₀, hmap⟩ := ht
  by_cases hb : t₀.typtype == "b"
  · rw [if_pos hb] at hmap
    subst hmap
    simp only [List.mem_map] at hd
    obtain ⟨row, hrow, hd⟩ := hd
    have hrow' : row ∈ baseTypeDependencyRows4 cat schemaOK :=
      (List.mem_filter.mp hrow).1
    rw [baseTypeDependencyRows4, List.mem_dedup] at hrow'
    simp only [List.mem_flatMap, List.mem_map, List.mem_filter,
      Bool.and_eq_true, beq_iff_eq] at hrow'
    obtain ⟨dep, -, p, ⟨hp, -, hpnb⟩, t₁, -, n, -, heq⟩ := hrow'
    refine ⟨p, hp, hpnb, ?_⟩
    rw [← hd, ← heq]
  · rw [if_neg hb] at hmap
    subst hmap
    exact absurd htb (by simpa using hb)

/-- C1. For every acyclic dependency graph over the catalog object set, the
emission sequence produced by the topological sequencer exists, contains
exactly the input objects, and places every object strictly after all of the
objects its resolved DependsUpon references name (the `Pairwise` conjunct:
no earlier element of the sequence names a later one among its
dependencies); in particular the set {TypeA(deps=[FuncX]), FuncX(deps=[]),
TypeB(deps=[TypeA])} sequences to [FuncX, TypeA, TypeB]. -/
theorem C1_topological_order :
    (∀ objs : List MetadataObj, Acyclic objs →
      ∃ s, topologicalSortObjects objs = some s ∧ s.Perm objs ∧
        s.Pairwise (fun a b => key b ∉ a.dependsUpon)) ∧
    topologicalSortObjects [exTypeA, exFuncX, exTypeB] =
      some [exFuncX, exTypeA, exTypeB] :=
  ⟨fun objs h => topologicalSortObjects_sound objs h, by decide⟩

/-- Witness for C1 at the spec's example set, with the rank function
`Oid` discharging the acyclicity hypothesis. -/
theorem C1_topological_order_witness :
    Acyclic [exTypeA, exFuncX, exTypeB] ∧
    (∃ s, topologicalSortObjects [exTypeA, exFuncX, exTypeB] = some s ∧
      s.Perm [exTypeA, exFuncX, exTypeB] ∧
      s.Pairwise (fun a b => key b ∉ a.dependsUpon)) :=
  have hacyc : Acyclic [exTypeA, exFuncX, exTypeB] :=
    ⟨fun o => o.oid, by unfold RankOK; decide⟩
  ⟨hacyc, C1_topological_order.1 [exTypeA, exFuncX, exTypeB] hacyc⟩

/-- C8. Resolution and sequencing are deterministic: two runs on the same
(possibly differently ordered) input produce identical emission orderings;
ties among ready nodes are broken by the ascending (Schema, Name, Oid) order
baked into the sequencer's pre-sort (whose output is sorted by `keyLe`).
The Oid-distinctness hypothesis is the run invariant that Oids are unique
within one run. -/
theorem C8_deterministic_sequencing :
    (∀ l l' : List MetadataObj, l.Perm l' →
      l.Pairwise (fun a b => a.oid ≠ b.oid) →
      topologicalSortObjects l = topologicalSortObjects l') ∧
    (∀ l : List MetadataObj, (l.insertionSort keyLe).Sorted keyLe) :=
  ⟨topologicalSortObjects_perm_eq, fun l => sorted_insertionSort keyLe l⟩

/-- Witness for C8 on two orderings of the example set. -/
theorem C8_deterministic_sequencing_witness :
    List.Perm [exTypeA, exFuncX, exTypeB] [exTypeB, exTypeA, exFuncX] ∧
    List.Pairwise (fun a b => a.oid ≠ b.oid) [exTypeA, exFuncX, exTypeB] ∧
    topologicalSortObjects [exTypeA, exFuncX, exTypeB] =
      topologicalSortObjects [exTypeB, exTypeA, exFuncX] :=
  have hp : List.Perm [exTypeA, exFuncX, exTypeB] [exTypeB, exTypeA, exFuncX] :=
    by decide
  have hn : List.Pairwise (fun a b => a.oid ≠ b.oid)
      [exTypeA, exFuncX, exTypeB] := by decide
  ⟨hp, hn, C8_deterministic_sequencing.1 _ _ hp hn⟩

/-- C6. Automatically-generated array counterparts of base/composite types
and the types implicitly created alongside tables are excluded from the
candidate object set before graph construction (first conjunct: no query
result row satisfies either exclusion condition, on either side of the
version branch, for any input catalog), and they can never be dependency
targets either, because the resolver only ever targets members of the
candidate set (second conjunct). -/
theorem C6_generated_types_excluded :
    (∀ (before5 : Bool) (cat : PGCatalog) (schemaOK : Nat → Bool)
        (typeChar : Char),
      ∀ t ∈ getTypeQuerySem before5 cat schemaOK typeChar,
        arrayTypesCond before5 cat t = false ∧ tableTypesCond cat t = false) ∧
    (∀ (s : List MetadataObj) (o : MetadataObj),
      ∀ u ∈ resolvedDeps s o, u ∈ s) :=
  ⟨getTypeQuerySem_excludes, resolvedDeps_subset⟩

/-- Witness for C6: the plain type survives the GPDB5-style query on the
example catalog and satisfies neither exclusion condition, and a concrete
resolved dependency target is a member of its set. -/
theorem C6_generated_types_excluded_witness :
    (arrayTypesCond false exCatalog exPlainType = false ∧
      tableTypesCond exCatalog exPlainType = false) ∧
    exFuncX ∈ [exFuncX, exTypeA] :=
  ⟨C6_generated_types_excluded.1 false exCatalog (fun _ => true) 'b'
      exPlainType (by decide),
   C6_generated_types_excluded.2 [exFuncX, exTypeA] exTypeA exFuncX (by decide)⟩

/-- C7. An unresolved DependsUpon reference is dropped silently and never
causes an error: erasing a name that matches no object in the set leaves the
resolved dependencies unchanged (no edge was added for it); an acyclic set
always sequences successfully; the spec's example with FuncX absent
sequences TypeA with no predecessor; and both dependency-construction
queries only ever produce entries originating from functions outside
pg_catalog, so built-in functions never enter a base type's DependsUpon
list. -/
theorem C7_unresolved_reference_policy :
    (∀ (s : List MetadataObj) (o : MetadataObj) (d : String),
      (∀ u ∈ s, key u ≠ d) →
      resolvedDeps s o =
        resolvedDeps s
          ⟨o.oid, o.schema, o.name, o.dependsUpon.filter (fun x => x ≠ d)⟩) ∧
    (∀ objs : List MetadataObj, Acyclic objs →
      (topologicalSortObjects objs).isSome) ∧
    topologicalSortObjects [exTypeA, exTypeB] = some [exTypeA, exTypeB] ∧
    (∀ (cat : PGCatalog) (schemaOK : Nat → Bool) (quoteIdent : String → String)
        (pgGetFunctionArguments : Nat → String) (types : List TypeMeta),
      ∀ t ∈ ConstructBaseTypeDependencies5 cat schemaOK quoteIdent
          pgGetFunctionArguments types,
        t.typtype = "b" →
        ∀ d ∈ t.dependsUpon,
          ∃ p ∈ cat.procs, procNotBuiltin cat p = true ∧
            ∃ n ∈ cat.namespaces,
              d = quoteIdent n.nspname ++ "." ++ quoteIdent p.proname ++ "("
                ++ pgGetFunctionArguments p.oid ++ ")") ∧
    (∀ (cat : PGCatalog) (schemaOK : Nat → Bool)
        (funcInfoMap : Nat → FunctionInfo) (types : List TypeMeta),
      ∀ t ∈ ConstructBaseTypeDependencies4 cat schemaOK funcInfoMap types,
        t.typtype = "b" →
        ∀ d ∈ t.dependsUpon,
          ∃ p ∈ cat.procs, procNotBuiltin cat p = true ∧
            d = (funcInfoMap p.oid).qualifiedName ++ "("
              ++ (funcInfoMap p.oid).arguments ++ ")") := by
  refine ⟨resolvedDeps_erase_unresolved, ?_, by decide,
    constructBaseTypeDependencies5_provenance,
    constructBaseTypeDependencies4_provenance⟩
  intro objs h
  obtain ⟨s, hs, -, -⟩ := topologicalSortObjects_sound objs h
  rw [hs]
  rfl

/-- Witness for C7: each conjunct applied at a concrete input with its
hypotheses discharged. -/
theorem C7_unresolved_reference_policy_witness :
    (resolvedDeps [exTypeB] exTypeA =
      resolvedDeps [exTypeB]
        ⟨exTypeA.oid, exTypeA.schema, exTypeA.name,
          exTypeA.dependsUpon.filter (fun x => x ≠ "public.FuncX")⟩) ∧
    (topologicalSortObjects [exTypeA, exTypeB]).isSome ∧
    (∃ p ∈ exDepCatalog.procs, procNotBuiltin exDepCatalog p = true ∧
      ∃ n ∈ exDepCatalog.namespaces,
        "public.f()" = id n.nspname ++ "." ++ id p.proname ++ "("
          ++ (fun _ => "") p.oid ++ ")") ∧
    (∃ p ∈ exDepCatalog.procs, procNotBuiltin exDepCatalog p = true ∧
      "public.f()" =
        ((fun _ => (⟨"public.f", ""⟩ : FunctionInfo)) p.oid).qualifiedName
          ++ "(" ++
          ((fun _ => (⟨"public.f", ""⟩ : FunctionInfo)) p.oid).arguments
          ++ ")") := by
  refine ⟨C7_unresolved_reference_policy.1 [exTypeB] exTypeA "public.FuncX"
      (by decide), ?_, ?_, ?_⟩
  · exact C7_unresolved_reference_policy.2.1 [exTypeA, exTypeB]
      ⟨fun o => o.oid, by unfold RankOK; decide⟩
  · exact C7_unresolved_reference_policy.2.2.2.1 exDepCatalog (fun _ => true)
      id (fun _ => "") [⟨3, "b", []⟩] ⟨3, "b", ["public.f()"]⟩ (by decide)
      rfl "public.f()" (by decide)
  · exact C7_unresolved_reference_policy.2.2.2.2 exDepCatalog (fun _ => true)
      (fun _ => ⟨"public.f", ""⟩) [⟨3, "b", []⟩] ⟨3, "b", ["public.f()"]⟩
      (by decide) rfl "public.f()" (by decide)

/-- C2 counterexample. After `PrintRoleMembershipStatements` on an empty
section with one role grant, the stream is non-empty but byte 0 lies in no
recorded range: the claim's "no bytes lying outside every recorded range /
the section stream is exactly the concatenation of the recorded ranges from
offset 0" is false — the two-byte blank-line separator the function writes
first is covered by no entry. -/
theorem C2_offset_accounting_counterexample :
    0 < (PrintRoleMembershipStatements ⟨[]⟩ ⟨[]⟩
        [⟨"r1", "m1", "g1", false⟩]).1.byteCount ∧
    ((PrintRoleMembershipStatements ⟨[]⟩ ⟨[]⟩
        [⟨"r1", "m1", "g1", false⟩]).2.entries.all
      (fun e => !(decide (e.startOff ≤ 0) && decide (0 < e.endOff)))) = true := by
  decide

/-- C2 as amended. Every recorded entry's EndOffset − StartOffset equals the
exact byte length of the text written for its object, and consecutive
emissions yield adjacent, gap-free ranges; but the section stream is not
always exactly the concatenation of the recorded ranges from offset 0:
`printUniversalSessionGUCs` covers its whole output with its single entry,
while `PrintRoleMembershipStatements` first writes a two-byte blank-line
separator covered by no entry, so its stream is that separator followed by
the concatenation of the recorded ranges, whose chain ends exactly at the
final byte count. -/
theorem C2_offset_accounting_amended :
    (∀ (f : FileWithByteCount) (t : TOC) (gucs : SessionGUCs),
      (printUniversalSessionGUCs f t gucs).2.entries =
        t.entries ++ [⟨"", "", "SESSION GUCS", f.byteCount,
          f.byteCount + byteSize (universalSessionGUCsText gucs).data⟩] ∧
      (printUniversalSessionGUCs f t gucs).1.contents =
        f.contents ++ (universalSessionGUCsText gucs).data) ∧
    (∀ (f : FileWithByteCount) (t : TOC) (ms : List RoleMember),
      (PrintRoleMembershipStatements f t ms).2.entries =
        t.entries ++ roleMemberEntries (f.byteCount + 2) ms ∧
      entriesChainFrom (f.byteCount + 2)
        (roleMemberEntries (f.byteCount + 2) ms) ∧
      List.Forall₂ (fun (e : TOCEntry) (m : RoleMember) =>
          e.endOff = e.startOff + byteSize (roleMemberText m).data ∧
            e.objectType = "ROLE GRANT" ∧ e.name = m.member)
        (roleMemberEntries (f.byteCount + 2) ms) ms ∧
      (PrintRoleMembershipStatements f t ms).1.contents =
        (f.contents ++ "\n\n".data)
          ++ ms.flatMap (fun m => (roleMemberText m).data) ∧
      (PrintRoleMembershipStatements f t ms).1.byteCount =
        chainEnd (f.byteCount + 2) (roleMemberEntries (f.byteCount + 2) ms)) := by
  constructor
  · intro f t gucs
    rw [printUniversalSessionGUCs_eq]
    exact ⟨rfl, rfl⟩
  · intro f t ms
    have hb : (f.mustPrintf "\n\n").byteCount = f.byteCount + 2 := by
      rw [byteCount_mustPrintf, show byteSize "\n\n".data = 2 from by decide]
    have hfold := foldl_printOneRoleMember ms (f.mustPrintf "\n\n", t)
    refine ⟨?_, roleMemberEntries_chain ms _, roleMemberEntries_spec ms _,
      ?_, ?_⟩
    · show (ms.foldl printOneRoleMember (f.mustPrintf "\n\n", t)).2.entries = _
      rw [hfold, ← hb]
    · show (ms.foldl printOneRoleMember (f.mustPrintf "\n\n", t)).1.contents = _
      rw [hfold]
      rfl
    · show (ms.foldl printOneRoleMember (f.mustPrintf "\n\n", t)).1.byteCount = _
      rw [hfold, roleMemberEntries_chainEnd]
      show byteSize ((f.mustPrintf "\n\n").contents
        ++ ms.flatMap fun m => (roleMemberText m).data) = _
      rw [byteSize_append, ← hb]
      rfl

/-- C3 counterexample. A database whose annotation renders empty yields
exactly one TOC entry — the code's `if globalFile.ByteCount > start` guard
skips the metadata entry instead of recording a zero-length one, so no
entry with StartOffset = EndOffset appears. -/
theorem C3_zero_length_entry_counterexample :
    ((PrintCreateDatabaseStatement ⟨[]⟩ ⟨[]⟩ ⟨10, "testdb", "pg_default"⟩
        (fun _ => "")).2.entries.length = 1) ∧
    ((PrintCreateDatabaseStatement ⟨[]⟩ ⟨[]⟩ ⟨10, "testdb", "pg_default"⟩
        (fun _ => "")).2.entries.all
      (fun e => decide (e.startOff < e.endOff))) = true := by
  decide

/-- C3 as amended. The emitter records a TOC entry only when bytes were
written for it: when the annotation renders empty,
`PrintCreateDatabaseStatement` records no entry for the annotation (so no
zero-length range arises), and every entry it records satisfies
StartOffset ≤ EndOffset (indeed strictly <). -/
theorem C3_entry_recording_amended (f : FileWithByteCount) (t : TOC)
    (db : Database) (md : MetadataMap) :
    (md db.oid = "" →
      (PrintCreateDatabaseStatement f t db md).2.entries =
        t.entries ++ [⟨"", db.name, "DATABASE", f.byteCount,
          f.byteCount + byteSize (createDatabaseText db).data⟩]) ∧
    (∀ e ∈ (PrintCreateDatabaseStatement f t db md).2.entries,
      e ∈ t.entries ∨ e.startOff < e.endOff) := by
  have hpos : 0 < byteSize (createDatabaseText db).data := by
    rcases h0 : byteSize (createDatabaseText db).data with _ | n
    · exfalso
      have := (byteSize_eq_zero_iff _).mp h0
      have hnil := (string_data_eq_nil_iff _).mp this
      have : (createDatabaseText db).data.length = 0 := by
        rw [hnil]
        rfl
      rw [createDatabaseText] at this
      simp [String.data_append', List.length_append] at this
    · omega
  constructor
  · intro hmd
    rw [PrintCreateDatabaseStatement_eq, if_pos hmd]
  · intro e he
    rw [PrintCreateDatabaseStatement_eq] at he
    by_cases hmd : md db.oid = ""
    · rw [if_pos hmd] at he
      rcases List.mem_append.mp he with h | h
      · exact Or.inl h
      · right
        rcases List.mem_singleton.mp h with rfl
        simpa using hpos
    · rw [if_neg hmd] at he
      rcases List.mem_append.mp he with h | h
      · exact Or.inl h
      · right
        have hmdpos : 0 < byteSize (md db.oid).data := by
          rcases h0 : byteSize (md db.oid).data with _ | n
          · exact absurd ((string_data_eq_nil_iff _).mp
              ((byteSize_eq_zero_iff _).mp h0)) hmd
          · omega
        rcases List.mem_cons.mp h with rfl | h
        · simpa using hpos
        · rcases List.mem_singleton.mp h with rfl
          simpa using hmdpos

/-- Witness for C3 at a concrete database with empty annotation. -/
theorem C3_entry_recording_amended_witness :
    (PrintCreateDatabaseStatement ⟨[]⟩ ⟨[]⟩ ⟨10, "testdb", "pg_default"⟩
        (fun _ => "")).2.entries =
      (⟨[]⟩ : TOC).entries ++ [⟨"", "testdb", "DATABASE",
        FileWithByteCount.byteCount ⟨[]⟩,
        FileWithByteCount.byteCount ⟨[]⟩
          + byteSize (createDatabaseText ⟨10, "testdb", "pg_default"⟩).data⟩] :=
  (C3_entry_recording_amended ⟨[]⟩ ⟨[]⟩ ⟨10, "testdb", "pg_default"⟩
    (fun _ => "")).1 rfl

/-- C4 counterexample. For a database with a non-empty annotation the code
records two entries — a "DATABASE" entry for the primary statement and a
separate "DATABASE METADATA" entry for the annotation — not one entry
covering both. -/
theorem C4_annotation_fold_counterexample :
    (PrintCreateDatabaseStatement ⟨[]⟩ ⟨[]⟩ ⟨10, "testdb", "pg_default"⟩
        (fun _ => "OWNER")).2.entries.length = 2 := by
  decide

/-- C4 as amended. Resource-queue emission folds the annotation into the
single recorded "RESOURCE QUEUE" entry: its range covers the blank-line
separator, the statement and the annotation, and covers only
separator + statement when the annotation is empty.
`PrintCreateDatabaseStatement`, however, gives a non-empty annotation its
own second "DATABASE METADATA" entry immediately after the primary range,
and records only the primary entry when the annotation is empty. -/
theorem C4_annotation_fold_amended :
    (∀ (f : FileWithByteCount) (t : TOC) (qs : List ResourceQueue)
        (md : MetadataMap),
      (PrintCreateResourceQueueStatements f t qs md).2.entries =
        t.entries ++ resourceQueueEntries md f.byteCount qs ∧
      List.Forall₂ (fun (e : TOCEntry) (q : ResourceQueue) =>
          e.endOff = e.startOff
            + byteSize ("\n\n" ++ resourceQueueStatement q).data
            + byteSize (md q.oid).data
          ∧ e.objectType = "RESOURCE QUEUE" ∧ e.name = q.name)
        (resourceQueueEntries md f.byteCount qs) qs) ∧
    (∀ (f : FileWithByteCount) (t : TOC) (db : Database) (md : MetadataMap),
      md db.oid ≠ "" →
      (PrintCreateDatabaseStatement f t db md).2.entries =
        t.entries
          ++ [⟨"", db.name, "DATABASE", f.byteCount,
                f.byteCount + byteSize (createDatabaseText db).data⟩,
              ⟨"", db.name, "DATABASE METADATA",
                f.byteCount + byteSize (createDatabaseText db).data,
                f.byteCount + byteSize (createDatabaseText db).data
                  + byteSize (md db.oid).data⟩]) := by
  constructor
  · intro f t qs md
    refine ⟨?_, resourceQueueEntries_spec md qs f.byteCount⟩
    show (qs.foldl (fun ft q => printOneResourceQueue ft q md) (f, t)).2.entries
      = _
    rw [foldl_printOneResourceQueue]
  · intro f t db md hmd
    rw [PrintCreateDatabaseStatement_eq, if_neg hmd]

/-- Witness for C4 at a database with non-empty annotation. -/
theorem C4_annotation_fold_amended_witness :
    (PrintCreateDatabaseStatement ⟨[]⟩ ⟨[]⟩ ⟨10, "testdb", "pg_default"⟩
        (fun _ => "OWNER")).2.entries =
      (⟨[]⟩ : TOC).entries
        ++ [⟨"", "testdb", "DATABASE", FileWithByteCount.byteCount ⟨[]⟩,
              FileWithByteCount.byteCount ⟨[]⟩
                + byteSize (createDatabaseText ⟨10, "testdb", "pg_default"⟩).data⟩,
            ⟨"", "testdb", "DATABASE METADATA",
              FileWithByteCount.byteCount ⟨[]⟩
                + byteSize (createDatabaseText ⟨10, "testdb", "pg_default"⟩).data,
              FileWithByteCount.byteCount ⟨[]⟩
                + byteSize (createDatabaseText ⟨10, "testdb", "pg_default"⟩).data
                + byteSize ("OWNER" : String).data⟩] :=
  C4_annotation_fold_amended.2 ⟨[]⟩ ⟨[]⟩ ⟨10, "testdb", "pg_default"⟩
    (fun _ => "OWNER") (by decide)

/-- C5 counterexample. The built-in resource group `default_group` produces
five TOC entries in one emission — one per altered property — not exactly
one. -/
theorem C5_single_entry_counterexample :
    (PrintCreateResourceGroupStatements ⟨[]⟩ ⟨[]⟩
      [⟨20, "default_group", 10, 10, 10, 10, 1⟩]
      (fun _ => "")).2.entries.length = 5 := by
  decide

/-- C5 as amended. Resource queues and role grants record exactly one entry
per object; resource groups record one entry per object except the built-in
`default_group`/`admin_group`, which record five (one per ALTER statement);
a database records one entry, or two when its annotation is non-empty. -/
theorem C5_entry_count_amended :
    (∀ (f : FileWithByteCount) (t : TOC) (qs : List ResourceQueue)
        (md : MetadataMap),
      (PrintCreateResourceQueueStatements f t qs md).2.entries.length
        = t.entries.length + qs.length) ∧
    (∀ (f : FileWithByteCount) (t : TOC) (ms : List RoleMember),
      (PrintRoleMembershipStatements f t ms).2.entries.length
        = t.entries.length + ms.length) ∧
    (∀ (f : FileWithByteCount) (t : TOC) (gs : List ResourceGroup)
        (md : MetadataMap),
      (PrintCreateResourceGroupStatements f t gs md).2.entries.length
        = t.entries.length
          + (gs.map (fun g => if isBuiltinResGroup g then 5 else 1)).sum) ∧
    (∀ (f : FileWithByteCount) (t : TOC) (db : Database) (md : MetadataMap),
      (PrintCreateDatabaseStatement f t db md).2.entries.length
        = t.entries.length + (if md db.oid = "" then 1 else 2)) := by
  refine ⟨?_, ?_, ?_, ?_⟩
  · intro f t qs md
    show (qs.foldl (fun ft q => printOneResourceQueue ft q md) (f, t)).2.entries.length
      = _
    rw [foldl_printOneResourceQueue]
    simp [resourceQueueEntries_length]
  · intro f t ms
    show (ms.foldl printOneRoleMember (f.mustPrintf "\n\n", t)).2.entries.length
      = _
    rw [foldl_printOneRoleMember]
    simp [roleMemberEntries_length]
  · intro f t gs md
    exact foldl_printOneResourceGroup_entries_length gs md (f, t)
  · intro f t db md
    rw [PrintCreateDatabaseStatement_eq]
    by_cases hmd : md db.oid = ""
    · rw [if_pos hmd, if_pos hmd]
      simp
    · rw [if_neg hmd, if_neg hmd]
      simp

/-- C9. Before version 5, `PrintSessionGUCs` records the universal
"SESSION GUCS" entry followed by a separate "GPDB4 SESSION GUCS" entry whose
range covers exactly the `gp_strict_xml_parse` setting; from version 5 on it
records only the universal entry. -/
theorem C9_session_gucs_by_version (v : Nat) (f : FileWithByteCount)
    (t : TOC) (gucs : SessionGUCs) :
    (v < 5 →
      (PrintSessionGUCs v f t gucs).2.entries =
        t.entries
          ++ [⟨"", "", "SESSION GUCS", f.byteCount,
                f.byteCount + byteSize (universalSessionGUCsText gucs).data⟩,
              ⟨"", "", "GPDB4 SESSION GUCS",
                f.byteCount + byteSize (universalSessionGUCsText gucs).data,
                f.byteCount + byteSize (universalSessionGUCsText gucs).data
                  + byteSize gpdb4SessionGUCsText.data⟩] ∧
      (PrintSessionGUCs v f t gucs).1.contents =
        (f.contents ++ (universalSessionGUCsText gucs).data)
          ++ gpdb4SessionGUCsText.data) ∧
    (¬ v < 5 →
      (PrintSessionGUCs v f t gucs).2.entries =
        t.entries ++ [⟨"", "", "SESSION GUCS", f.byteCount,
          f.byteCount + byteSize (universalSessionGUCsText gucs).data⟩] ∧
      (PrintSessionGUCs v f t gucs).1.contents =
        f.contents ++ (universalSessionGUCsText gucs).data) := by
  constructor
  · intro hv
    rw [PrintSessionGUCs]
    rw [if_pos hv, printUniversalSessionGUCs_eq]
    show (print4OnlySessionGUCs ⟨f.contents ++ (universalSessionGUCsText gucs).data⟩
        ⟨t.entries ++ [⟨"", "", "SESSION GUCS", f.byteCount,
          f.byteCount + byteSize (universalSessionGUCsText gucs).data⟩]⟩).2.entries
        = _ ∧ _
    rw [print4OnlySessionGUCs_eq]
    constructor
    · show (t.entries ++ [_]) ++ [(⟨"", "", "GPDB4 SESSION GUCS",
        FileWithByteCount.byteCount ⟨f.contents ++ (universalSessionGUCsText gucs).data⟩,
        FileWithByteCount.byteCount ⟨f.contents ++ (universalSessionGUCsText gucs).data⟩
          + byteSize gpdb4SessionGUCsText.data⟩ : TOCEntry)] = _
      rw [show FileWithByteCount.byteCount
            ⟨f.contents ++ (universalSessionGUCsText gucs).data⟩
          = f.byteCount + byteSize (universalSessionGUCsText gucs).data from by
        simp [FileWithByteCount.byteCount, byteSize_append]]
      simp
    · rfl
  · intro hv
    rw [PrintSessionGUCs, if_neg hv, printUniversalSessionGUCs_eq]
    exact ⟨rfl, rfl⟩

/-- Witness for C9 at versions 4 and 5 on an empty section. -/
theorem C9_session_gucs_by_version_witness :
    ((PrintSessionGUCs 4 ⟨[]⟩ ⟨[]⟩ ⟨"UTF8", "false"⟩).2.entries =
      (⟨[]⟩ : TOC).entries
        ++ [⟨"", "", "SESSION GUCS", FileWithByteCount.byteCount ⟨[]⟩,
              FileWithByteCount.byteCount ⟨[]⟩
                + byteSize (universalSessionGUCsText ⟨"UTF8", "false"⟩).data⟩,
            ⟨"", "", "GPDB4 SESSION GUCS",
              FileWithByteCount.byteCount ⟨[]⟩
                + byteSize (universalSessionGUCsText ⟨"UTF8", "false"⟩).data,
              FileWithByteCount.byteCount ⟨[]⟩
                + byteSize (universalSessionGUCsText ⟨"UTF8", "false"⟩).data
                + byteSize gpdb4SessionGUCsText.data⟩]) ∧
    ((PrintSessionGUCs 5 ⟨[]⟩ ⟨[]⟩ ⟨"UTF8", "false"⟩).2.entries =
      (⟨[]⟩ : TOC).entries
        ++ [⟨"", "", "SESSION GUCS", FileWithByteCount.byteCount ⟨[]⟩,
              FileWithByteCount.byteCount ⟨[]⟩
                + byteSize (universalSessionGUCsText ⟨"UTF8", "false"⟩).data⟩]) :=
  ⟨((C9_session_gucs_by_version 4 ⟨[]⟩ ⟨[]⟩ ⟨"UTF8", "false"⟩).1
      (by omega)).1,
   ((C9_session_gucs_by_version 5 ⟨[]⟩ ⟨[]⟩ ⟨"UTF8", "false"⟩).2
      (by omega)).1⟩

theorem resourceQueueEntries_objectType (md : MetadataMap)
    (qs : List ResourceQueue) (n : Nat) :
    ∀ e ∈ resourceQueueEntries md n qs, e.objectType = "RESOURCE QUEUE" := by
  induction qs generalizing n with
  | nil => intro e he; exact absurd he (List.not_mem_nil e)
  | cons q qs ih =>
    intro e he
    rcases List.mem_cons.mp he with rfl | he
    · rfl
    · exact ih _ e he

/-- C10. The statement emitted for a resource queue begins with
"ALTER RESOURCE QUEUE" exactly when the queue is named `pg_default` and with
"CREATE RESOURCE QUEUE" for every other name, while every entry the loop
records has kind "RESOURCE QUEUE" in both cases. -/
theorem C10_resource_queue_action :
    (∀ q : ResourceQueue,
      (q.name = "pg_default" →
        "ALTER RESOURCE QUEUE".data <+: (resourceQueueStatement q).data) ∧
      (q.name ≠ "pg_default" →
        "CREATE RESOURCE QUEUE".data <+: (resourceQueueStatement q).data)) ∧
    (∀ (f : FileWithByteCount) (t : TOC) (qs : List ResourceQueue)
        (md : MetadataMap),
      ∀ e ∈ (PrintCreateResourceQueueStatements f t qs md).2.entries,
        e ∈ t.entries ∨ e.objectType = "RESOURCE QUEUE") := by
  constructor
  · intro q
    constructor
    · intro h
      rw [resourceQueueStatement, if_pos h]
      refine ⟨(" " ++ q.name ++ " WITH ("
        ++ String.intercalate ", " (resourceQueueAttributes q) ++ ");").data, ?_⟩
      simp only [String.data_append', ← List.append_assoc]
      congr 4
    · intro h
      rw [resourceQueueStatement, if_neg h]
      refine ⟨(" " ++ q.name ++ " WITH ("
        ++ String.intercalate ", " (resourceQueueAttributes q) ++ ");").data, ?_⟩
      simp only [String.data_append', ← List.append_assoc]
      congr 4
  · intro f t qs md e he
    have : (PrintCreateResourceQueueStatements f t qs md).2.entries =
        t.entries ++ resourceQueueEntries md f.byteCount qs := by
      show (qs.foldl (fun ft q => printOneResourceQueue ft q md) (f, t)).2.entries
        = _
      rw [foldl_printOneResourceQueue]
    rw [this] at he
    rcases List.mem_append.mp he with h | h
    · exact Or.inl h
    · exact Or.inr (resourceQueueEntries_objectType md qs f.byteCount e h)

/-- Witness for C10 on one `pg_default` queue and one ordinary queue. -/
theorem C10_resource_queue_action_witness :
    ("ALTER RESOURCE QUEUE".data <+: (resourceQueueStatement rqDefault).data) ∧
    ("CREATE RESOURCE QUEUE".data <+: (resourceQueueStatement rqOther).data) ∧
    ((⟨"", "pg_default", "RESOURCE QUEUE", 0,
        byteSize (resourceQueueWrittenData (fun _ => "") rqDefault)⟩ : TOCEntry)
        ∈ (⟨[]⟩ : TOC).entries ∨
      (⟨"", "pg_default", "RESOURCE QUEUE", 0,
        byteSize (resourceQueueWrittenData (fun _ => "") rqDefault)⟩
          : TOCEntry).objectType = "RESOURCE QUEUE") :=
  ⟨(C10_resource_queue_action.1 rqDefault).1 rfl,
   (C10_resource_queue_action.1 rqOther).2 (by decide),
   C10_resource_queue_action.2 ⟨[]⟩ ⟨[]⟩ [rqDefault] (fun _ => "") _ (by decide)⟩
